import Mathlib

/-!
Verification of the SorteoPremiosService prize-allocation service.

The definitions below are a shallow embedding of the TypeScript source:
  * `src/src/db.ts`            — the `transaction` helper (begin/commit/rollback).
  * `src/src/routes/public.routes.ts` — the public routes `/claim`,
    `/spin-roulette`, `/register-spin` and the `weightedRandom` draw.
  * `src/unnamed/part_002`     — the historical `/claim` variant whose
    per-person limit matches on phone number or (phone-less) name.
  * `src/src/routes/admin.routes.ts` — prize creation and prize update.

MySQL rows are modelled as Lean structures, result sets as lists, and the
`NULL`-propagating SQL equality used in `WHERE` clauses as `sqlOptEq`
(`col = NULL` never holds).  Thrown JavaScript errors are modelled with
`Except String`.  The random value produced by `Math.random()` is a
parameter `rand` ranging over `[0,1)` in a linear ordered field.
-/

namespace SorteoPremios

/-- Row of the `stores` table. -/
structure StoreRow where
  id : String
  name : String
  campaign : String
  is_active : Bool
deriving Repr, DecidableEq

/-- Row of the `prizes` table. -/
structure PrizeRow where
  id : String
  store_id : String
  name : String
  description : String
  initial_stock : Int
  available_stock : Int
deriving Repr, DecidableEq

/-- Row of the `registers` table (the claim ledger). -/
structure RegisterRow where
  id : String
  name : String
  store_id : Option String
  prize_id : Option String
  campaign : String
  status : String
  photo_url : Option String
  phone_number : Option String
  dni : Option String
  voucher_number : Option String
  email : Option String
deriving Repr, DecidableEq

/-- The database state: the three tables the public and admin routes touch. -/
structure Db where
  stores : List StoreRow
  prizes : List PrizeRow
  registers : List RegisterRow
deriving Repr, DecidableEq

/-- SQL equality on nullable columns: `x = y` is satisfied only when both
sides are non-`NULL` and equal (`NULL = v` is never true in a `WHERE`). -/
def sqlOptEq (a b : Option String) : Bool :=
  match a, b with
  | some x, some y => x == y
  | _, _ => false

/-- JavaScript `v || null` applied to a request field: `undefined` and the
empty string are both falsy and collapse to `null`. -/
def orNull (s : Option String) : Option String :=
  match s with
  | some v => if v = "" then none else some v
  | none => none

/-- Projection of a prize row used by the draw
(`SELECT id, name, available_stock`), the `PrizeForDraw` interface. -/
structure PrizeForDraw where
  id : String
  name : String
  available_stock : Int
deriving Repr, DecidableEq

/-- `prizes.reduce((sum, prize) => sum + prize.available_stock, 0)` from
`weightedRandom` in `public.routes.ts`. -/
def totalWeight (prizes : List PrizeForDraw) : Int :=
  prizes.foldl (fun sum prize => sum + prize.available_stock) 0

/-- The accumulation loop of `weightedRandom`: subtract each prize's
`available_stock` from the running value and return the first prize at
which the running value becomes `≤ 0`; `none` when the loop falls through. -/
def drawLoop {α : Type} [LinearOrderedField α] (randomNumber : α) :
    List PrizeForDraw → Option PrizeForDraw
  | [] => none
  | prize :: rest =>
    let r := randomNumber - (prize.available_stock : α)
    if r ≤ 0 then some prize else drawLoop r rest

/-- The error message thrown by `weightedRandom` when `totalWeight === 0`. -/
def noStockMsg : String := "No hay stock disponible para sortear."

/-- `weightedRandom(prizes)` from `public.routes.ts`: compute the total
weight, throw when it is zero, set `randomNumber = Math.random() * totalWeight`
(`rand` is the `Math.random()` output), run the subtraction loop, and fall
back to `prizes[prizes.length - 1]` after the loop (an out-of-range access
on the empty list is modelled as an error). -/
def weightedRandom {α : Type} [LinearOrderedField α]
    (prizes : List PrizeForDraw) (rand : α) : Except String PrizeForDraw :=
  let tw := totalWeight prizes
  if tw = 0 then
    .error noStockMsg
  else
    let randomNumber := rand * (tw : α)
    match drawLoop randomNumber prizes with
    | some prize => .ok prize
    | none =>
      match prizes.getLast? with
      | some p => .ok p
      | none => .error "undefined index prizes[-1]"

/-- Result row of the duplicate-DNI lookup in `/claim`
(`SELECT r.name, p.name AS prize_name ... LEFT JOIN prizes p`). -/
structure ExistingRegistrationRow where
  name : String
  prize_name : Option String
deriving Repr, DecidableEq

/-- The eligibility query of `/claim` in `public.routes.ts`:
`SELECT r.name, p.name AS prize_name FROM registers r LEFT JOIN prizes p ON
r.prize_id = p.id WHERE r.dni = ? AND r.campaign = ?`.  A `NULL` dni
parameter matches no row. -/
def existingByDni (dni : Option String) (campaign : String) (db : Db) :
    List ExistingRegistrationRow :=
  (db.registers.filter (fun r => sqlOptEq r.dni dni && r.campaign == campaign)).map
    (fun r =>
      { name := r.name
        prize_name := (db.prizes.find? (fun p => sqlOptEq r.prize_id (some p.id))).map
          (fun p => p.name) })

/-- The prize-listing query shared by the allocation routes:
`SELECT id, name, available_stock FROM prizes WHERE store_id = ? AND
available_stock > 0`. -/
def availablePrizesQuery (storeId : String) (db : Db) : List PrizeForDraw :=
  (db.prizes.filter (fun p => p.store_id == storeId && decide (0 < p.available_stock))).map
    (fun p => { id := p.id, name := p.name, available_stock := p.available_stock })

/-- The configured per-identity limit (`MAX_PRIZES_PER_PERSON`). -/
def MAX_PRIZES_PER_PERSON : Nat := 1

/-- Summary returned with the 403 "Ya ha sido registrado." response. -/
structure ClaimDetails where
  user : String
  prize : String
  count : Nat
  limit : Nat
deriving Repr, DecidableEq

/-- HTTP response shapes produced by the modelled routes. -/
inductive ApiResponse where
  | badRequest (message : String)
  | notFound (message : String)
  | forbidden (message : String) (details : Option ClaimDetails)
  | conflict (message : String)
  | ok (message : String) (prize : String) (registerId : String)
  | serverError (message : String)
deriving Repr, DecidableEq

/-- HTTP status code of each modelled response. -/
def statusOf : ApiResponse → Nat
  | .badRequest _ => 400
  | .notFound _ => 404
  | .forbidden _ _ => 403
  | .conflict _ => 409
  | .ok _ _ _ => 200
  | .serverError _ => 500

/-- Which `connection.execute` call inside the claim transaction the storage
layer makes fail (JavaScript: any `execute` may reject; `noFault` is the run
in which all three succeed). -/
inductive TxFault where
  | noFault
  | failRead
  | failUpdate
  | failInsert
deriving Repr, DecidableEq

/-- Representative storage-layer error message for an injected fault. -/
def infraMsg : String := "ER_CONNECTION_LOST"

/-- The locked re-read inside the transaction:
`SELECT available_stock FROM prizes WHERE id = ? AND available_stock > 0 FOR UPDATE`. -/
def lockedStockRead (prizeId : String) (db : Db) : List Int :=
  (db.prizes.filter (fun p => p.id == prizeId && decide (0 < p.available_stock))).map
    (fun p => p.available_stock)

/-- `UPDATE prizes SET available_stock = available_stock - 1 WHERE id = ?`. -/
def decrementStock (prizeId : String) (db : Db) : Db :=
  { db with
    prizes := db.prizes.map (fun p =>
      if p.id == prizeId then { p with available_stock := p.available_stock - 1 } else p) }

/-- `INSERT INTO registers ... VALUES (...)`. -/
def insertRegister (row : RegisterRow) (db : Db) : Db :=
  { db with registers := db.registers ++ [row] }

/-- The transaction callback shared by `/claim`, `/spin-roulette`,
`/register-spin` and `/register-spin-fixed`: locked re-read filtered to
`available_stock > 0`, throwing `STOCK_LOST` when it returns no row, then the
stock decrement, then the register insert.  `fault` injects a storage-layer
failure at one of the three `connection.execute` calls. -/
def claimTxCallback (fault : TxFault) (prizeId : String) (row : RegisterRow)
    (db : Db) : Except String Db :=
  if fault = .failRead then .error infraMsg
  else if (lockedStockRead prizeId db).length = 0 then .error "STOCK_LOST"
  else if fault = .failUpdate then .error infraMsg
  else
    let db1 := decrementStock prizeId db
    if fault = .failInsert then .error infraMsg
    else .ok (insertRegister row db1)

/-- The `transaction` helper of `src/src/db.ts`: run the callback between
`beginTransaction` and `commit`; on any thrown error, `rollback` and
re-throw.  The first component is what the caller receives (the result or
the re-raised error); the second is the database state observable
afterwards — the callback's committed state on success, the original state
after a rollback. -/
def transaction (db : Db) (callback : Db → Except String Db) :
    Except String Db × Db :=
  match callback db with
  | .ok db1 => (.ok db1, db1)
  | .error e => (.error e, db)

/-- Request body of `POST /claim` (`public.routes.ts`). -/
structure ClaimRequest where
  name : Option String
  storeId : Option String
  campaign : Option String
  photoUrl : Option String
  phoneNumber : Option String
  dni : Option String
deriving Repr, DecidableEq

/-- The `catch` handler of `/claim`: `NO_STOCK` and `STOCK_LOST` become a
409 conflict, anything else a 500 internal error. -/
def claimCatch (e : String) : ApiResponse :=
  if e == "NO_STOCK" || e == "STOCK_LOST" then
    .conflict "Lo sentimos, el premio fue tomado por otra persona justo ahora. Inténtelo de nuevo."
  else
    .serverError "Error interno del servidor durante el proceso de reclamo."

/-- The 403 payload of `/claim`: `existing.name || 'Usuario desconocido'`,
`existing.prize_name || 'Participó / No ganó'`, the row count and the limit. -/
def claimForbiddenDetails (existing : List ExistingRegistrationRow) : ClaimDetails :=
  let ex := existing.head?.getD { name := "", prize_name := none }
  { user := if ex.name = "" then "Usuario desconocido" else ex.name
    prize :=
      match ex.prize_name with
      | some s => if s = "" then "Participó / No ganó" else s
      | none => "Participó / No ganó"
    count := existing.length
    limit := MAX_PRIZES_PER_PERSON }

/-- `POST /claim` after the eligibility check passed: prize listing, empty
check, weighted draw, atomic transaction, catch handler. -/
def claimProceed (name storeId campaign : String)
    (finalPhotoUrl finalPhoneNumber finalDni : Option String)
    (rand : ℚ) (newRegisterId : String) (fault : TxFault) (db : Db) :
    ApiResponse × Db :=
  let availablePrizes := availablePrizesQuery storeId db
  if availablePrizes.length = 0 then
    (.conflict "Lo sentimos, los premios para esta tienda se han agotado.", db)
  else
    match weightedRandom availablePrizes rand with
    | .error e => (claimCatch e, db)
    | .ok winningPrize =>
      let row : RegisterRow :=
        { id := newRegisterId, name := name, store_id := some storeId
          prize_id := some winningPrize.id, campaign := campaign, status := "CLAIMED"
          photo_url := finalPhotoUrl, phone_number := finalPhoneNumber
          dni := finalDni, voucher_number := none, email := none }
      let res := transaction db (claimTxCallback fault winningPrize.id row)
      match res.1 with
      | .ok _ => (.ok "¡Premio entregado con éxito!" winningPrize.name newRegisterId, res.2)
      | .error e => (claimCatch e, res.2)

/-- `POST /claim` (`public.routes.ts`): validation of the three required
fields, the per-DNI limit check (403 with summary when the count of prior
rows under the same dni and campaign reaches `MAX_PRIZES_PER_PERSON`),
then `claimProceed`. -/
def claimRoute (req : ClaimRequest) (rand : ℚ) (newRegisterId : String)
    (fault : TxFault) (db : Db) : ApiResponse × Db :=
  if orNull req.name = none ∨ orNull req.storeId = none ∨ orNull req.campaign = none then
    (.badRequest "Faltan datos requeridos (name, storeId, campaign).", db)
  else
    let name := (orNull req.name).getD ""
    let storeId := (orNull req.storeId).getD ""
    let campaign := (orNull req.campaign).getD ""
    let finalDni := orNull req.dni
    let existing := existingByDni finalDni campaign db
    if MAX_PRIZES_PER_PERSON ≤ existing.length then
      (.forbidden "Ya ha sido registrado." (some (claimForbiddenDetails existing)), db)
    else
      claimProceed name storeId campaign (orNull req.photoUrl) (orNull req.phoneNumber)
        finalDni rand newRegisterId fault db

/-- The `catch` handler of `/spin-roulette`. -/
def spinCatch (e : String) : ApiResponse :=
  if e == "NO_STOCK" || e == "STOCK_LOST" then
    .conflict "El premio seleccionado se agotó en este instante. Por favor gira de nuevo."
  else
    .serverError "Error interno al procesar el giro."

/-- `POST /spin-roulette` (`public.routes.ts`): anonymous allocation — no
eligibility check of any kind; prize listing, weighted draw, atomic
transaction inserting an anonymous `CLAIMED` row (`NULL` phone, dni, photo
and voucher). `anonymousName` stands for the time-derived placeholder name. -/
def spinRouletteRoute (storeId campaign : Option String) (rand : ℚ)
    (newRegisterId anonymousName : String) (fault : TxFault) (db : Db) :
    ApiResponse × Db :=
  if orNull storeId = none ∨ orNull campaign = none then
    (.badRequest "Faltan datos requeridos (storeId, campaign).", db)
  else
    let sid := (orNull storeId).getD ""
    let camp := (orNull campaign).getD ""
    let availablePrizes := availablePrizesQuery sid db
    if availablePrizes.length = 0 then
      (.conflict "Lo sentimos, los premios para esta tienda se han agotado.", db)
    else
      match weightedRandom availablePrizes rand with
      | .error e => (spinCatch e, db)
      | .ok winningPrize =>
        let row : RegisterRow :=
          { id := newRegisterId, name := anonymousName, store_id := some sid
            prize_id := some winningPrize.id, campaign := camp, status := "CLAIMED"
            photo_url := none, phone_number := none, dni := none
            voucher_number := none, email := none }
        let res := transaction db (claimTxCallback fault winningPrize.id row)
        match res.1 with
        | .ok _ => (.ok "¡Premio obtenido!" winningPrize.name newRegisterId, res.2)
        | .error e => (spinCatch e, res.2)

/-- The `catch` handler of `/register-spin`. -/
def registerSpinCatch (e : String) : ApiResponse :=
  if e == "NO_STOCK" || e == "STOCK_LOST" then
    .conflict "El premio seleccionado se agotó en este instante. Por favor intenta de nuevo."
  else
    .serverError "Error interno al procesar el registro."

/-- `POST /register-spin` (`public.routes.ts`): validates the five required
fields and then allocates directly — it performs no lookup of prior
`registers` rows — inserting a `CLAIMED` row carrying the supplied dni and
email. -/
def registerSpinRoute (storeId campaign name dni email : Option String)
    (rand : ℚ) (newRegisterId : String) (fault : TxFault) (db : Db) :
    ApiResponse × Db :=
  if orNull storeId = none ∨ orNull campaign = none ∨ orNull name = none
      ∨ orNull dni = none ∨ orNull email = none then
    (.badRequest "Faltan datos requeridos (storeId, campaign, name, dni, email).", db)
  else
    let sid := (orNull storeId).getD ""
    let camp := (orNull campaign).getD ""
    let nm := (orNull name).getD ""
    let dniV := (orNull dni).getD ""
    let emailV := (orNull email).getD ""
    let availablePrizes := availablePrizesQuery sid db
    if availablePrizes.length = 0 then
      (.conflict "Lo sentimos, los premios para esta tienda se han agotado.", db)
    else
      match weightedRandom availablePrizes rand with
      | .error e => (registerSpinCatch e, db)
      | .ok winningPrize =>
        let row : RegisterRow :=
          { id := newRegisterId, name := nm, store_id := some sid
            prize_id := some winningPrize.id, campaign := camp, status := "CLAIMED"
            photo_url := none, phone_number := none, dni := some dniV
            voucher_number := none, email := some emailV }
        let res := transaction db (claimTxCallback fault winningPrize.id row)
        match res.1 with
        | .ok _ =>
          (.ok "¡Registro exitoso y premio asignado!" winningPrize.name newRegisterId, res.2)
        | .error e => (registerSpinCatch e, res.2)

/-- Request body of the historical `/claim` variant (`src/unnamed/part_002`). -/
structure VariantClaimRequest where
  name : Option String
  storeId : Option String
  campaign : Option String
  phoneNumber : Option String
  photoUrl : Option String
deriving Repr, DecidableEq

/-- The per-person limit count of the `part_002` variant:
`SELECT COUNT(id) FROM registers WHERE (phone_number = ? OR (phone_number IS
NULL AND name = ?)) AND campaign = ?` with parameters
`[limitIdentifier, name, campaign]`. -/
def variantLimitCount (limitIdentifier name campaign : String) (db : Db) : Nat :=
  (db.registers.filter (fun r =>
    (sqlOptEq r.phone_number (some limitIdentifier)
      || (r.phone_number == none && r.name == name))
    && r.campaign == campaign)).length

/-- The `catch` handler of the `part_002` variant `/claim`. -/
def variantClaimCatch (e : String) : ApiResponse :=
  if e == "NO_STOCK" || e == "STOCK_LOST" then
    .conflict "Lo sentimos, los premios para esta tienda se han agotado o fueron tomados justo ahora. Inténtelo de nuevo."
  else
    .serverError "Error interno del servidor durante el proceso de reclamo."

/-- The `part_002` variant `/claim` after its limit check passed: prize
listing, draw, transaction (the inserted row has no dni, voucher or email). -/
def variantClaimProceed (name storeId campaign : String)
    (finalPhotoUrl finalPhoneNumber : Option String)
    (rand : ℚ) (newRegisterId : String) (fault : TxFault) (db : Db) :
    ApiResponse × Db :=
  let availablePrizes := availablePrizesQuery storeId db
  if availablePrizes.length = 0 then
    (.conflict "Lo sentimos, los premios para esta tienda se han agotado.", db)
  else
    match weightedRandom availablePrizes rand with
    | .error e => (variantClaimCatch e, db)
    | .ok winningPrize =>
      let row : RegisterRow :=
        { id := newRegisterId, name := name, store_id := some storeId
          prize_id := some winningPrize.id, campaign := campaign, status := "CLAIMED"
          photo_url := finalPhotoUrl, phone_number := finalPhoneNumber
          dni := none, voucher_number := none, email := none }
      let res := transaction db (claimTxCallback fault winningPrize.id row)
      match res.1 with
      | .ok _ => (.ok "¡Premio entregado con éxito!" winningPrize.name newRegisterId, res.2)
      | .error e => (variantClaimCatch e, res.2)

/-- The historical `/claim` variant of `src/unnamed/part_002`: the limit
identifier is the phone number when present, the display name otherwise,
and the request is rejected with 403 when the count reaches
`MAX_PRIZES_PER_PERSON`. -/
def variantClaimRoute (req : VariantClaimRequest) (rand : ℚ)
    (newRegisterId : String) (fault : TxFault) (db : Db) : ApiResponse × Db :=
  if orNull req.name = none ∨ orNull req.storeId = none ∨ orNull req.campaign = none then
    (.badRequest "Faltan datos requeridos (name, storeId, campaign).", db)
  else
    let name := (orNull req.name).getD ""
    let storeId := (orNull req.storeId).getD ""
    let campaign := (orNull req.campaign).getD ""
    let finalPhoneNumber := orNull req.phoneNumber
    let limitIdentifier := finalPhoneNumber.getD name
    let countResult := variantLimitCount limitIdentifier name campaign db
    if MAX_PRIZES_PER_PERSON ≤ countResult then
      (.forbidden "Límite alcanzado. Ya has reclamado 1 premio(s) con este identificador en esta campaña." none, db)
    else
      variantClaimProceed name storeId campaign (orNull req.photoUrl) finalPhoneNumber
        rand newRegisterId fault db

/-- `POST /admin/prizes` (`admin.routes.ts`): rejects a missing store or an
invalid (negative) stock, requires the store to exist and be active, and
inserts a prize whose `available_stock` starts equal to `initial_stock`.
The duplicate-id branch models the MySQL primary-key constraint
(`ER_DUP_ENTRY` surfaces as a 500 with no insert). -/
def createPrizeRoute (id storeId name description : String) (initialStock : Int)
    (db : Db) : ApiResponse × Db :=
  if storeId = "" || name = "" || initialStock < 0 then
    (.badRequest "Faltan datos requeridos o el stock es inválido.", db)
  else if (db.stores.filter (fun s => s.id == storeId && s.is_active)).length = 0 then
    (.notFound "La tienda con el ID proporcionado no existe o no está activa.", db)
  else if db.prizes.any (fun p => p.id == id) then
    (.serverError "ER_DUP_ENTRY", db)
  else
    (.ok "Premio creado y stock inicializado exitosamente." "" id,
      { db with
        prizes := db.prizes ++
          [{ id := id, store_id := storeId, name := name, description := description
             initial_stock := initialStock, available_stock := initialStock }] })

/-- `PUT /admin/prizes/:id` (`admin.routes.ts`): a supplied `availableStock`
must parse to a non-negative integer (400 otherwise); at least one field is
required; the update then sets the supplied fields — including
`available_stock` — on the row with the given id, with no comparison
against `initial_stock`. -/
def updatePrizeRoute (id : String) (name description : Option String)
    (availableStock : Option Int) (db : Db) : ApiResponse × Db :=
  match availableStock with
  | some v =>
    if v < 0 then (.badRequest "El stock disponible proporcionado es inválido.", db)
    else if (db.prizes.filter (fun p => p.id == id)).length = 0 then
      (.notFound "Premio no encontrado o no se realizaron cambios.", db)
    else
      (.ok "Premio actualizado exitosamente." "" id,
        { db with
          prizes := db.prizes.map (fun p =>
            if p.id == id then
              { p with
                name := (orNull name).getD p.name
                description := (orNull description).getD p.description
                available_stock := v }
            else p) })
  | none =>
    if (orNull name) = none ∧ (orNull description) = none then
      (.badRequest "Se requiere al menos un campo (name, description o availableStock) para actualizar.", db)
    else if (db.prizes.filter (fun p => p.id == id)).length = 0 then
      (.notFound "Premio no encontrado o no se realizaron cambios.", db)
    else
      (.ok "Premio actualizado exitosamente." "" id,
        { db with
          prizes := db.prizes.map (fun p =>
            if p.id == id then
              { p with
                name := (orNull name).getD p.name
                description := (orNull description).getD p.description }
            else p) })

/-- The operations of the system that can touch prize stock, used to state
the stock invariants over arbitrary operation sequences. -/
inductive SysOp where
  | createPrize (id storeId name description : String) (initialStock : Int)
  | updatePrize (id : String) (name description : Option String) (availableStock : Option Int)
  | claim (req : ClaimRequest) (rand : ℚ) (newRegisterId : String) (fault : TxFault)
  | spinRoulette (storeId campaign : Option String) (rand : ℚ)
      (newRegisterId anonymousName : String) (fault : TxFault)
  | registerSpin (storeId campaign name dni email : Option String) (rand : ℚ)
      (newRegisterId : String) (fault : TxFault)
  | variantClaim (req : VariantClaimRequest) (rand : ℚ) (newRegisterId : String) (fault : TxFault)
deriving Repr

/-- Database state reached after one operation. -/
def step (db : Db) (op : SysOp) : Db :=
  match op with
  | .createPrize id sid nm desc st => (createPrizeRoute id sid nm desc st db).2
  | .updatePrize id nm desc st => (updatePrizeRoute id nm desc st db).2
  | .claim req rand rid fault => (claimRoute req rand rid fault db).2
  | .spinRoulette sid camp rand rid anon fault =>
    (spinRouletteRoute sid camp rand rid anon fault db).2
  | .registerSpin sid camp nm dniV em rand rid fault =>
    (registerSpinRoute sid camp nm dniV em rand rid fault db).2
  | .variantClaim req rand rid fault => (variantClaimRoute req rand rid fault db).2

/-- Database state reached after a sequence of operations. -/
def applyOps (db : Db) (ops : List SysOp) : Db :=
  ops.foldl step db

/-- Well-formedness maintained by the storage layer: prize ids are unique
(primary key) and `available_stock` is non-negative. -/
def dbInv (db : Db) : Prop :=
  (db.prizes.map (fun p => p.id)).Nodup ∧ ∀ p ∈ db.prizes, 0 ≤ p.available_stock

/-- Upper stock bound: every prize satisfies `available_stock ≤ initial_stock`. -/
def stockBounded (db : Db) : Prop :=
  ∀ p ∈ db.prizes, p.available_stock ≤ p.initial_stock

/-- Whether an operation is the admin stock adjustment (the only operation
that writes `available_stock` other than the engine's decrement). -/
def isStockAdjust : SysOp → Bool
  | .updatePrize _ _ _ (some _) => true
  | _ => false

/-- Sum of the `available_stock` of the first `n` prizes: the weight already
subtracted from `randomNumber` when the loop reaches index `n`. -/
def weightTo (prizes : List PrizeForDraw) (n : Nat) : Int :=
  ((prizes.take n).map (fun p => p.available_stock)).sum

lemma foldl_add_stock (l : List PrizeForDraw) (a : Int) :
    l.foldl (fun sum prize => sum + prize.available_stock) a
      = a + (l.map (fun p => p.available_stock)).sum := by
  induction l generalizing a with
  | nil => simp
  | cons p rest ih => simp [ih, add_assoc]

lemma totalWeight_eq_sum (prizes : List PrizeForDraw) :
    totalWeight prizes = (prizes.map (fun p => p.available_stock)).sum := by
  simp [totalWeight, foldl_add_stock]

lemma totalWeight_cons (p : PrizeForDraw) (rest : List PrizeForDraw) :
    totalWeight (p :: rest) = p.available_stock + totalWeight rest := by
  simp [totalWeight_eq_sum]

lemma weightTo_zero (prizes : List PrizeForDraw) : weightTo prizes 0 = 0 := rfl

lemma weightTo_cons (p : PrizeForDraw) (rest : List PrizeForDraw) (n : Nat) :
    weightTo (p :: rest) (n + 1) = p.available_stock + weightTo rest n := by
  simp [weightTo]

lemma weightTo_succ (prizes : List PrizeForDraw) (i : Nat) (h : i < prizes.length) :
    weightTo prizes (i + 1) = weightTo prizes i + (prizes.get ⟨i, h⟩).available_stock := by
  induction prizes generalizing i with
  | nil => simp at h
  | cons p rest ih =>
    cases i with
    | zero => simp [weightTo]
    | succ j =>
      have hj : j < rest.length := by simpa using h
      simp only [weightTo_cons, List.get_cons_succ, ih j hj]
      ring

lemma weightTo_length (prizes : List PrizeForDraw) :
    weightTo prizes prizes.length = totalWeight prizes := by
  simp [weightTo, totalWeight_eq_sum]

lemma weightTo_le_succ (prizes : List PrizeForDraw)
    (hs : ∀ p ∈ prizes, 0 ≤ p.available_stock) (n : Nat) :
    weightTo prizes n ≤ weightTo prizes (n + 1) := by
  by_cases h : n < prizes.length
  · have := hs (prizes.get ⟨n, h⟩) (prizes.get_mem _ _)
    rw [weightTo_succ prizes n h]
    omega
  · have hlen : prizes.length ≤ n := Nat.le_of_not_lt h
    unfold weightTo
    rw [List.take_of_length_le hlen, List.take_of_length_le (Nat.le_succ_of_le hlen)]

lemma weightTo_mono (prizes : List PrizeForDraw)
    (hs : ∀ p ∈ prizes, 0 ≤ p.available_stock) {m n : Nat} (hmn : m ≤ n) :
    weightTo prizes m ≤ weightTo prizes n := by
  induction n with
  | zero => simp_all
  | succ k ih =>
    rcases Nat.lt_or_ge m (k + 1) with hlt | hge
    · exact le_trans (ih (Nat.lt_succ_iff.mp hlt)) (weightTo_le_succ prizes hs k)
    · have : m = k + 1 := le_antisymm hmn hge
      simp [this]

lemma weightTo_nonneg (prizes : List PrizeForDraw)
    (hs : ∀ p ∈ prizes, 0 ≤ p.available_stock) (n : Nat) :
    0 ≤ weightTo prizes n :=
  weightTo_mono prizes hs (Nat.zero_le n)

lemma weightTo_le_total (prizes : List PrizeForDraw)
    (hs : ∀ p ∈ prizes, 0 ≤ p.available_stock) (n : Nat) :
    weightTo prizes n ≤ totalWeight prizes := by
  rcases le_or_lt n prizes.length with hle | hlt
  · rw [← weightTo_length]
    exact weightTo_mono prizes hs hle
  · unfold weightTo
    rw [List.take_of_length_le (Nat.le_of_lt hlt), ← totalWeight_eq_sum]

/-- The accumulation loop of `weightedRandom` always stops inside the loop
when `0 ≤ r < totalWeight`, and it stops exactly at the first index whose
prefix weight reaches `r`. -/
lemma drawLoop_found {α : Type} [LinearOrderedField α] :
    ∀ (prizes : List PrizeForDraw) (r : α), 0 ≤ r → r < (totalWeight prizes : α) →
    ∃ (i : Nat) (h : i < prizes.length),
      drawLoop r prizes = some (prizes.get ⟨i, h⟩) ∧
      r ≤ (weightTo prizes (i + 1) : α) ∧
      ∀ j < i, (weightTo prizes (j + 1) : α) < r := by
  intro prizes
  induction prizes with
  | nil =>
    intro r h0 hlt
    rw [totalWeight] at hlt
    simp at hlt
    exact absurd (lt_of_le_of_lt h0 hlt) (lt_irrefl 0)
  | cons p rest ih =>
    intro r h0 hlt
    by_cases hstop : r - (p.available_stock : α) ≤ 0
    · refine ⟨0, by simp, ?_, ?_, by omega⟩
      · simp [drawLoop, hstop]
      · have : weightTo (p :: rest) 1 = p.available_stock := by
          simp [weightTo_cons, weightTo_zero]
        rw [this]
        linarith
    · have hr0 : (0 : α) ≤ r - (p.available_stock : α) := le_of_lt (by linarith [not_le.mp hstop])
      have hrlt : r - (p.available_stock : α) < (totalWeight rest : α) := by
        have := totalWeight_cons p rest
        have hc : (totalWeight (p :: rest) : α) = (p.available_stock : α) + (totalWeight rest : α) := by
          rw [this]; push_cast; ring
        linarith [hc ▸ hlt]
      obtain ⟨i, hi, hdl, hub, hlb⟩ := ih (r - (p.available_stock : α)) hr0 hrlt
      refine ⟨i + 1, by simpa using Nat.succ_lt_succ hi, ?_, ?_, ?_⟩
      · simpa [drawLoop, hstop] using hdl
      · have : weightTo (p :: rest) (i + 2) = p.available_stock + weightTo rest (i + 1) :=
          weightTo_cons p rest (i + 1)
        rw [this]
        push_cast
        linarith
      · intro j hj
        cases j with
        | zero =>
          have : weightTo (p :: rest) 1 = p.available_stock := by
            simp [weightTo_cons, weightTo_zero]
          rw [this]
          linarith [not_le.mp hstop]
        | succ k =>
          have hk : k < i := by omega
          have : weightTo (p :: rest) (k + 2) = p.available_stock + weightTo rest (k + 1) :=
            weightTo_cons p rest (k + 1)
          rw [this]
          push_cast
          linarith [hlb k hk]

/-- The stopping conditions determine the stopping index uniquely. -/
lemma drawIdx_unique {α : Type} [LinearOrderedField α] {prizes : List PrizeForDraw}
    {r : α} {i i' : Nat}
    (h1 : r ≤ (weightTo prizes (i + 1) : α))
    (h2 : ∀ j < i, (weightTo prizes (j + 1) : α) < r)
    (h1' : r ≤ (weightTo prizes (i' + 1) : α))
    (h2' : ∀ j < i', (weightTo prizes (j + 1) : α) < r) : i = i' := by
  rcases lt_trichotomy i i' with h | h | h
  · exact absurd (h2' i h) (not_lt.mpr h1)
  · exact h
  · exact absurd (h2 i' h) (not_lt.mpr h1')

lemma drawLoop_mem {α : Type} [LinearOrderedField α] :
    ∀ (prizes : List PrizeForDraw) (r : α) (p : PrizeForDraw),
      drawLoop r prizes = some p → p ∈ prizes := by
  intro prizes
  induction prizes with
  | nil => intro r p h; simp [drawLoop] at h
  | cons q rest ih =>
    intro r p h
    rw [drawLoop] at h
    by_cases hstop : r - (q.available_stock : α) ≤ 0
    · simp [hstop] at h
      simp [h]
    · simp [hstop] at h
      exact List.mem_cons_of_mem q (ih _ p h)

lemma weightedRandom_mem {α : Type} [LinearOrderedField α]
    (prizes : List PrizeForDraw) (rand : α) (p : PrizeForDraw)
    (h : weightedRandom prizes rand = .ok p) : p ∈ prizes := by
  rw [weightedRandom] at h
  by_cases htw : totalWeight prizes = 0
  · simp [htw] at h
  · simp only [htw, if_false] at h
    rcases hdl : drawLoop (rand * (totalWeight prizes : α)) prizes with _ | q
    · rw [hdl] at h
      rcases hgl : prizes.getLast? with _ | q'
      · rw [hgl] at h; simp at h
      · rw [hgl] at h
        simp at h
        obtain ⟨hne, heq⟩ := List.mem_getLast?_eq_getLast (show q' ∈ prizes.getLast? by simp [hgl])
        subst h
        exact heq ▸ List.getLast_mem hne
    · rw [hdl] at h
      simp at h
      exact h ▸ drawLoop_mem prizes _ q hdl

/-- When the draw has positive total weight and the random input lies in
`[0,1)`, the result comes from the accumulation loop (the trailing
fallback `prizes[prizes.length - 1]` is not consulted), and it is the first
prize whose prefix weight reaches `rand * totalWeight`. -/
lemma weightedRandom_found {α : Type} [LinearOrderedField α]
    (prizes : List PrizeForDraw) (rand : α)
    (h0 : 0 ≤ rand) (h1 : rand < 1) (hpos : 0 < totalWeight prizes) :
    ∃ (i : Nat) (h : i < prizes.length),
      weightedRandom prizes rand = .ok (prizes.get ⟨i, h⟩) ∧
      drawLoop (rand * (totalWeight prizes : α)) prizes = some (prizes.get ⟨i, h⟩) ∧
      rand * (totalWeight prizes : α) ≤ (weightTo prizes (i + 1) : α) ∧
      ∀ j < i, (weightTo prizes (j + 1) : α) < rand * (totalWeight prizes : α) := by
  have hTα : (0 : α) < (totalWeight prizes : α) := by exact_mod_cast hpos
  have hr0 : (0 : α) ≤ rand * (totalWeight prizes : α) := mul_nonneg h0 (le_of_lt hTα)
  have hrlt : rand * (totalWeight prizes : α) < (totalWeight prizes : α) := by
    calc rand * (totalWeight prizes : α) < 1 * (totalWeight prizes : α) := by
          exact mul_lt_mul_of_pos_right h1 hTα
    _ = (totalWeight prizes : α) := one_mul _
  obtain ⟨i, hi, hdl, hub, hlb⟩ := drawLoop_found prizes _ hr0 hrlt
  refine ⟨i, hi, ?_, hdl, hub, hlb⟩
  rw [weightedRandom]
  simp only [ne_of_gt hpos, if_false]
  rw [hdl]

/-- For a duplicate-free prize list the draw returns the prize at index `i`
exactly when `rand * totalWeight` falls in the half-open weight window of
index `i`. -/
lemma weightedRandom_eq_get_iff {α : Type} [LinearOrderedField α]
    (prizes : List PrizeForDraw) (hnd : prizes.Nodup) (rand : α)
    (h0 : 0 ≤ rand) (h1 : rand < 1) (hpos : 0 < totalWeight prizes)
    (i : Nat) (h : i < prizes.length) :
    weightedRandom prizes rand = .ok (prizes.get ⟨i, h⟩) ↔
      rand * (totalWeight prizes : α) ≤ (weightTo prizes (i + 1) : α) ∧
      ∀ j < i, (weightTo prizes (j + 1) : α) < rand * (totalWeight prizes : α) := by
  obtain ⟨i0, hi0, hok, _, hub, hlb⟩ := weightedRandom_found prizes rand h0 h1 hpos
  constructor
  · intro heq
    have hget : prizes.get ⟨i0, hi0⟩ = prizes.get ⟨i, h⟩ := by
      have := hok.symm.trans heq
      simpa using this
    have : (⟨i0, hi0⟩ : Fin prizes.length) = ⟨i, h⟩ := (hnd.get_inj_iff).mp hget
    have hii : i0 = i := by simpa using this
    subst hii
    exact ⟨hub, hlb⟩
  · intro ⟨hub', hlb'⟩
    have hii : i = i0 := drawIdx_unique hub' hlb' hub hlb
    subst hii
    exact hok

/-- Lebesgue measure of the set of `Math.random()` outputs in `[0,1)` for
which the draw selects the prize at index `i`: exactly
`available_stock i / totalWeight`, i.e. the selection probability of each
prize under a uniform random input is its stock share. -/
theorem weightedRandom_prob (prizes : List PrizeForDraw) (hnd : prizes.Nodup)
    (hs : ∀ p ∈ prizes, 0 ≤ p.available_stock) (hpos : 0 < totalWeight prizes)
    (i : Nat) (h : i < prizes.length) :
    MeasureTheory.volume
        {u : ℝ | u ∈ Set.Ico (0 : ℝ) 1 ∧ weightedRandom prizes u = .ok (prizes.get ⟨i, h⟩)}
      = ENNReal.ofReal (((prizes.get ⟨i, h⟩).available_stock : ℝ) / (totalWeight prizes : ℝ)) := by
  have hT : (0 : ℝ) < (totalWeight prizes : ℝ) := by exact_mod_cast hpos
  set T : ℝ := (totalWeight prizes : ℝ) with hTdef
  set a : ℝ := (weightTo prizes i : ℝ) / T with hadef
  set b : ℝ := (weightTo prizes (i + 1) : ℝ) / T with hbdef
  have ha0 : 0 ≤ (weightTo prizes i : ℝ) := by
    exact_mod_cast weightTo_nonneg prizes hs i
  have hbT : (weightTo prizes (i + 1) : ℝ) ≤ T := by
    rw [hTdef]
    exact_mod_cast weightTo_le_total prizes hs (i + 1)
  have hb1 : b ≤ 1 := by
    rw [hbdef, div_le_one hT]
    exact hbT
  have ha0' : 0 ≤ a := div_nonneg ha0 (le_of_lt hT)
  have hsub : Set.Ioo a b ⊆
      {u : ℝ | u ∈ Set.Ico (0 : ℝ) 1 ∧ weightedRandom prizes u = .ok (prizes.get ⟨i, h⟩)} := by
    intro u hu
    obtain ⟨hau, hub⟩ := hu
    have hu0 : 0 ≤ u := le_trans ha0' (le_of_lt hau)
    have hu1 : u < 1 := lt_of_lt_of_le hub hb1
    refine ⟨⟨hu0, hu1⟩, ?_⟩
    rw [weightedRandom_eq_get_iff prizes hnd u hu0 hu1 hpos i h]
    constructor
    · have : u * T < (weightTo prizes (i + 1) : ℝ) := (lt_div_iff₀ hT).mp (hbdef ▸ hub)
      linarith
    · intro j hj
      have hmono : weightTo prizes (j + 1) ≤ weightTo prizes i :=
        weightTo_mono prizes hs (Nat.succ_le_of_lt hj)
      have hmono' : (weightTo prizes (j + 1) : ℝ) ≤ (weightTo prizes i : ℝ) := by
        exact_mod_cast hmono
      have hua : (weightTo prizes i : ℝ) < u * T := (div_lt_iff₀ hT).mp (hadef ▸ hau)
      linarith
  have hsup : {u : ℝ | u ∈ Set.Ico (0 : ℝ) 1 ∧ weightedRandom prizes u = .ok (prizes.get ⟨i, h⟩)}
      ⊆ Set.Icc a b := by
    intro u hu
    obtain ⟨⟨hu0, hu1⟩, hok⟩ := hu
    rw [weightedRandom_eq_get_iff prizes hnd u hu0 hu1 hpos i h] at hok
    obtain ⟨hub, hlb⟩ := hok
    constructor
    · rcases Nat.eq_zero_or_pos i with hi0 | hipos
      · subst hi0
        have ha0eq : a = 0 := by rw [hadef]; simp [weightTo_zero]
        rw [ha0eq]
        exact hu0
      · have := hlb (i - 1) (by omega)
        have hieq : i - 1 + 1 = i := by omega
        rw [hieq] at this
        rw [hadef, div_le_iff₀ hT]
        linarith
    · rw [hbdef, le_div_iff₀ hT]
      linarith
  have hlen : b - a = ((prizes.get ⟨i, h⟩).available_stock : ℝ) / T := by
    rw [hadef, hbdef, div_sub_div_same]
    congr 1
    have := weightTo_succ prizes i h
    push_cast [this]
    ring
  have hlow : ENNReal.ofReal (b - a) ≤ MeasureTheory.volume
      {u : ℝ | u ∈ Set.Ico (0 : ℝ) 1 ∧ weightedRandom prizes u = .ok (prizes.get ⟨i, h⟩)} := by
    calc ENNReal.ofReal (b - a) = MeasureTheory.volume (Set.Ioo a b) := (Real.volume_Ioo).symm
    _ ≤ _ := MeasureTheory.measure_mono hsub
  have hhigh : MeasureTheory.volume
      {u : ℝ | u ∈ Set.Ico (0 : ℝ) 1 ∧ weightedRandom prizes u = .ok (prizes.get ⟨i, h⟩)}
      ≤ ENNReal.ofReal (b - a) := by
    calc MeasureTheory.volume _ ≤ MeasureTheory.volume (Set.Icc a b) :=
          MeasureTheory.measure_mono hsup
    _ = ENNReal.ofReal (b - a) := Real.volume_Icc
  rw [← hlen]
  exact le_antisymm hhigh hlow

lemma transaction_error_eq (db : Db) (cb : Db → Except String Db) (e : String)
    (h : cb db = .error e) : transaction db cb = (.error e, db) := by
  unfold transaction
  rw [h]

lemma transaction_ok_eq (db : Db) (cb : Db → Except String Db) (db1 : Db)
    (h : cb db = .ok db1) : transaction db cb = (.ok db1, db1) := by
  unfold transaction
  rw [h]

lemma claimTxCallback_fault_error (db : Db) (prizeId : String) (row : RegisterRow)
    (fault : TxFault) (h : fault ≠ .noFault) :
    ∃ e, claimTxCallback fault prizeId row db = .error e := by
  cases fault with
  | noFault => exact absurd rfl h
  | failRead => exact ⟨infraMsg, rfl⟩
  | failUpdate =>
    by_cases hr : (lockedStockRead prizeId db).length = 0
    · exact ⟨"STOCK_LOST", by simp [claimTxCallback, hr]⟩
    · exact ⟨infraMsg, by simp [claimTxCallback, hr]⟩
  | failInsert =>
    by_cases hr : (lockedStockRead prizeId db).length = 0
    · exact ⟨"STOCK_LOST", by simp [claimTxCallback, hr]⟩
    · exact ⟨infraMsg, by simp [claimTxCallback, hr]⟩

/-- C6: on any failure inside the transaction callback the whole transaction
rolls back — the database state observable afterwards is exactly the state
before the transaction, so no partial state (a stock decrement without a
matching claim record, or vice versa) is ever observable — and the error is
re-raised to the caller unchanged rather than swallowed.  The second
conjunct instantiates this for the three-step claim callback with a storage
failure injected at any of its steps. -/
theorem c6_transaction_rollback :
    (∀ (db : Db) (cb : Db → Except String Db) (e : String),
        cb db = .error e → transaction db cb = (.error e, db))
    ∧ (∀ (db : Db) (prizeId : String) (row : RegisterRow) (fault : TxFault),
        fault ≠ .noFault →
        ∃ e, transaction db (claimTxCallback fault prizeId row) = (.error e, db)) := by
  constructor
  · exact transaction_error_eq
  · intro db prizeId row fault h
    obtain ⟨e, he⟩ := claimTxCallback_fault_error db prizeId row fault h
    exact ⟨e, transaction_error_eq db _ e he⟩

/-- C7: inside the commit, the target prize is re-read filtered to
`available_stock > 0` (under `FOR UPDATE`); whenever that read executes,
the commit aborts with `STOCK_LOST` exactly when the read returns no row;
the route's catch handler turns `STOCK_LOST` into a 409 conflict and every
other error (infrastructure failures) into a 500 internal error. -/
theorem c7_stock_lost_conflict :
    (∀ (db : Db) (prizeId : String) (row : RegisterRow) (fault : TxFault),
        fault ≠ .failRead →
        (claimTxCallback fault prizeId row db = .error "STOCK_LOST" ↔
          lockedStockRead prizeId db = []))
    ∧ statusOf (claimCatch "STOCK_LOST") = 409
    ∧ (∀ e : String, e ≠ "NO_STOCK" → e ≠ "STOCK_LOST" →
        statusOf (claimCatch e) = 500) := by
  refine ⟨?_, by simp [claimCatch, statusOf], ?_⟩
  · intro db prizeId row fault hf
    constructor
    · intro h
      by_contra hne
      have hlen : ¬ (lockedStockRead prizeId db).length = 0 := by
        simpa [List.length_eq_zero] using hne
      rcases fault with _ | _ | _ | _
      · simp [claimTxCallback, hlen] at h
      · exact absurd rfl hf
      · simp [claimTxCallback, hlen, infraMsg] at h
      · simp [claimTxCallback, hlen, infraMsg] at h
    · intro h
      have hlen : (lockedStockRead prizeId db).length = 0 := by simp [h]
      rcases fault with _ | _ | _ | _
      · simp [claimTxCallback, hlen]
      · exact absurd rfl hf
      · simp [claimTxCallback, hlen]
      · simp [claimTxCallback, hlen]
  · intro e h1 h2
    simp [claimCatch, statusOf, h1, h2]

/-- C10: for every random input giving `0 ≤ r < totalWeight` the
accumulation loop of `weightedRandom` returns a prize from inside the loop,
so the trailing `return prizes[prizes.length - 1]` fallback is unreachable
and no out-of-range index is ever accessed; when the total weight is zero
(including the empty list) the function throws the no-stock error before
any indexing. -/
theorem c10_draw_loop_safe :
    (∀ (prizes : List PrizeForDraw) (r : ℚ),
        0 ≤ r → r < (totalWeight prizes : ℚ) → (drawLoop r prizes).isSome = true)
    ∧ (∀ (prizes : List PrizeForDraw) (rand : ℚ),
        0 ≤ rand → rand < 1 → 0 < totalWeight prizes →
        ∃ p, drawLoop (rand * (totalWeight prizes : ℚ)) prizes = some p ∧
          weightedRandom prizes rand = .ok p)
    ∧ (∀ (prizes : List PrizeForDraw) (rand : ℚ),
        totalWeight prizes = 0 → weightedRandom prizes rand = .error noStockMsg) := by
  refine ⟨?_, ?_, ?_⟩
  · intro prizes r h0 hlt
    obtain ⟨i, hi, hdl, -, -⟩ := drawLoop_found prizes r h0 hlt
    simp [hdl]
  · intro prizes rand h0 h1 hpos
    obtain ⟨i, hi, hok, hdl, -, -⟩ := weightedRandom_found prizes rand h0 h1 hpos
    exact ⟨prizes.get ⟨i, hi⟩, hdl, hok⟩
  · intro prizes rand h
    simp [weightedRandom, h]

/-- C4: `weightedRandom` fails with the no-stock error when
`totalWeight = 0`; otherwise, for every uniform input `rand ∈ [0,1)`
(so `r = rand * totalWeight ∈ [0, totalWeight)`), it selects the first
prize (in list order) at which the running remainder becomes `≤ 0` — an
element of the input snapshot, which the pure draw never modifies — and
consequently the Lebesgue measure of the set of uniform inputs selecting
each prize is exactly `available_stock / totalWeight`, the prize's stated
selection probability. -/
theorem c4_weighted_draw :
    (∀ (prizes : List PrizeForDraw) (rand : ℚ),
        totalWeight prizes = 0 → weightedRandom prizes rand = .error noStockMsg)
    ∧ (∀ (prizes : List PrizeForDraw) (rand : ℚ),
        0 ≤ rand → rand < 1 → 0 < totalWeight prizes →
        ∃ (i : Nat) (h : i < prizes.length),
          weightedRandom prizes rand = .ok (prizes.get ⟨i, h⟩) ∧
          prizes.get ⟨i, h⟩ ∈ prizes ∧
          rand * (totalWeight prizes : ℚ) ≤ (weightTo prizes (i + 1) : ℚ) ∧
          ∀ j < i, (weightTo prizes (j + 1) : ℚ) < rand * (totalWeight prizes : ℚ))
    ∧ (∀ (prizes : List PrizeForDraw), prizes.Nodup →
        (∀ p ∈ prizes, 0 ≤ p.available_stock) → 0 < totalWeight prizes →
        ∀ (i : Nat) (h : i < prizes.length),
        MeasureTheory.volume
            {u : ℝ | u ∈ Set.Ico (0 : ℝ) 1 ∧ weightedRandom prizes u = .ok (prizes.get ⟨i, h⟩)}
          = ENNReal.ofReal (((prizes.get ⟨i, h⟩).available_stock : ℝ) / (totalWeight prizes : ℝ))) := by
  refine ⟨?_, ?_, ?_⟩
  · intro prizes rand h
    simp [weightedRandom, h]
  · intro prizes rand h0 h1 hpos
    obtain ⟨i, hi, hok, -, hub, hlb⟩ := weightedRandom_found prizes rand h0 h1 hpos
    exact ⟨i, hi, hok, prizes.get_mem _ _, hub, hlb⟩
  · intro prizes hnd hs hpos i h
    exact weightedRandom_prob prizes hnd hs hpos i h

/-- Concrete draw snapshot used by witness instantiations. -/
def drawPrizesW : List PrizeForDraw :=
  [{ id := "p1", name := "A", available_stock := 3 },
   { id := "p2", name := "B", available_stock := 1 }]

/-- Concrete register row used by witness instantiations. -/
def rowW : RegisterRow :=
  { id := "r1", name := "Ana", store_id := some "s1", prize_id := some "p1"
    campaign := "c", status := "CLAIMED", photo_url := none, phone_number := none
    dni := some "123", voucher_number := none, email := none }

/-- Empty database used by witness instantiations. -/
def dbEmptyW : Db := { stores := [], prizes := [], registers := [] }

theorem c6_transaction_rollback_witness :
    transaction dbEmptyW (fun _ => .error "boom") = (.error "boom", dbEmptyW)
    ∧ ∃ e, transaction dbEmptyW (claimTxCallback .failInsert "p1" rowW) = (.error e, dbEmptyW) :=
  ⟨c6_transaction_rollback.1 dbEmptyW (fun _ => .error "boom") "boom" rfl,
   c6_transaction_rollback.2 dbEmptyW "p1" rowW .failInsert (by decide)⟩

theorem c7_stock_lost_conflict_witness :
    (claimTxCallback .noFault "p1" rowW dbEmptyW = .error "STOCK_LOST" ↔
      lockedStockRead "p1" dbEmptyW = [])
    ∧ statusOf (claimCatch "STOCK_LOST") = 409
    ∧ statusOf (claimCatch "ER_CONNECTION_LOST") = 500 :=
  ⟨c7_stock_lost_conflict.1 dbEmptyW "p1" rowW .noFault (by decide),
   c7_stock_lost_conflict.2.1,
   c7_stock_lost_conflict.2.2 "ER_CONNECTION_LOST" (by decide) (by decide)⟩

theorem c10_draw_loop_safe_witness :
    (drawLoop (2 : ℚ) drawPrizesW).isSome = true
    ∧ (∃ p, drawLoop ((1/2 : ℚ) * (totalWeight drawPrizesW : ℚ)) drawPrizesW = some p ∧
        weightedRandom drawPrizesW (1/2 : ℚ) = .ok p)
    ∧ weightedRandom ([] : List PrizeForDraw) (1/2 : ℚ) = .error noStockMsg :=
  ⟨c10_draw_loop_safe.1 drawPrizesW 2 (by norm_num) (by norm_num [drawPrizesW, totalWeight]),
   c10_draw_loop_safe.2.1 drawPrizesW (1/2) (by norm_num) (by norm_num) (by decide),
   c10_draw_loop_safe.2.2 [] (1/2) rfl⟩

theorem c4_weighted_draw_witness :
    weightedRandom ([] : List PrizeForDraw) (1/3 : ℚ) = .error noStockMsg
    ∧ (∃ (i : Nat) (h : i < drawPrizesW.length),
        weightedRandom drawPrizesW (1/2 : ℚ) = .ok (drawPrizesW.get ⟨i, h⟩) ∧
        drawPrizesW.get ⟨i, h⟩ ∈ drawPrizesW ∧
        (1/2 : ℚ) * (totalWeight drawPrizesW : ℚ) ≤ (weightTo drawPrizesW (i + 1) : ℚ) ∧
        ∀ j < i, (weightTo drawPrizesW (j + 1) : ℚ) < (1/2 : ℚ) * (totalWeight drawPrizesW : ℚ))
    ∧ MeasureTheory.volume
        {u : ℝ | u ∈ Set.Ico (0 : ℝ) 1 ∧
          weightedRandom drawPrizesW u = .ok (drawPrizesW.get ⟨0, by decide⟩)}
      = ENNReal.ofReal (((drawPrizesW.get ⟨0, by decide⟩).available_stock : ℝ)
          / (totalWeight drawPrizesW : ℝ)) :=
  ⟨c4_weighted_draw.1 [] (1/3) rfl,
   c4_weighted_draw.2.1 drawPrizesW (1/2) (by norm_num) (by norm_num) (by decide),
   c4_weighted_draw.2.2 drawPrizesW (by decide) (by decide) (by decide) 0 (by decide)⟩

/-- C8: when no prize of the store has positive stock, the listing query is
empty and the allocation request is rejected with the
"premios … agotado" 409 before any draw or transaction, leaving the
database (in particular all stock) unchanged; `weightedRandom` likewise
fails with the no-stock error when the total weight is zero. -/
theorem c8_no_stock_available :
    (∀ (storeId campaign : String) (rand : ℚ) (rid anon : String) (fault : TxFault) (db : Db),
        storeId ≠ "" → campaign ≠ "" →
        (∀ p ∈ db.prizes, p.store_id = storeId → ¬ 0 < p.available_stock) →
        availablePrizesQuery storeId db = [] ∧
        spinRouletteRoute (some storeId) (some campaign) rand rid anon fault db
          = (.conflict "Lo sentimos, los premios para esta tienda se han agotado.", db))
    ∧ (∀ (prizes : List PrizeForDraw) (rand : ℚ),
        totalWeight prizes = 0 → weightedRandom prizes rand = .error noStockMsg) := by
  constructor
  · intro storeId campaign rand rid anon fault db hS hC hnone
    have hq : availablePrizesQuery storeId db = [] := by
      unfold availablePrizesQuery
      have : db.prizes.filter
          (fun p => p.store_id == storeId && decide (0 < p.available_stock)) = [] := by
        rw [List.filter_eq_nil_iff]
        intro p hp
        simp only [Bool.and_eq_true, beq_iff_eq, decide_eq_true_eq, not_and]
        intro hsid
        exact hnone p hp hsid
      rw [this]
      rfl
    refine ⟨hq, ?_⟩
    simp [spinRouletteRoute, orNull, hS, hC, hq]
  · intro prizes rand h
    simp [weightedRandom, h]

/-- Store with a single exhausted prize, used by the C8 witness. -/
def dbZeroW : Db :=
  { stores := [{ id := "s1", name := "S", campaign := "c", is_active := true }]
    prizes := [{ id := "p1", store_id := "s1", name := "A", description := ""
                 initial_stock := 2, available_stock := 0 }]
    registers := [] }

theorem c8_no_stock_available_witness :
    (availablePrizesQuery "s1" dbZeroW = [] ∧
      spinRouletteRoute (some "s1") (some "c") (1/2 : ℚ) "r1" "anon" .noFault dbZeroW
        = (.conflict "Lo sentimos, los premios para esta tienda se han agotado.", dbZeroW))
    ∧ weightedRandom ([] : List PrizeForDraw) (1/4 : ℚ) = .error noStockMsg :=
  ⟨c8_no_stock_available.1 "s1" "c" (1/2) "r1" "anon" .noFault dbZeroW
      (by decide) (by decide) (by decide),
   c8_no_stock_available.2 [] (1/4) rfl⟩

/-- The eligibility rows of `/claim` for a given request: prior `registers`
rows matching the request dni in the request campaign. -/
def claimExisting (req : ClaimRequest) (db : Db) : List ExistingRegistrationRow :=
  existingByDni (orNull req.dni) ((orNull req.campaign).getD "") db

lemma claimProceed_fst_ne_forbidden (name storeId campaign : String)
    (phU phN dni : Option String) (rand : ℚ) (rid : String) (fault : TxFault) (db : Db)
    (m : String) (d : Option ClaimDetails) :
    (claimProceed name storeId campaign phU phN dni rand rid fault db).1 ≠ .forbidden m d := by
  unfold claimProceed
  dsimp only
  split_ifs with h
  · simp
  · split
    · simp only [claimCatch]
      split_ifs <;> simp
    · split
      · simp
      · simp only [claimCatch]
        split_ifs <;> simp

lemma claimRoute_forbidden_of (req : ClaimRequest) (rand : ℚ) (rid : String)
    (fault : TxFault) (db : Db)
    (hcond : ¬(orNull req.name = none ∨ orNull req.storeId = none ∨ orNull req.campaign = none))
    (hlim : MAX_PRIZES_PER_PERSON ≤ (claimExisting req db).length) :
    claimRoute req rand rid fault db
      = (.forbidden "Ya ha sido registrado."
          (some (claimForbiddenDetails (claimExisting req db))), db) := by
  unfold claimExisting at hlim
  simp only [claimRoute, claimExisting]
  rw [if_neg hcond]
  simp [hlim]

lemma claimRoute_proceed_of (req : ClaimRequest) (rand : ℚ) (rid : String)
    (fault : TxFault) (db : Db)
    (hcond : ¬(orNull req.name = none ∨ orNull req.storeId = none ∨ orNull req.campaign = none))
    (hlim : (claimExisting req db).length < MAX_PRIZES_PER_PERSON) :
    claimRoute req rand rid fault db
      = claimProceed ((orNull req.name).getD "") ((orNull req.storeId).getD "")
          ((orNull req.campaign).getD "") (orNull req.photoUrl) (orNull req.phoneNumber)
          (orNull req.dni) rand rid fault db := by
  have hn : ¬ MAX_PRIZES_PER_PERSON ≤ (claimExisting req db).length := not_le.mpr hlim
  unfold claimExisting at hn
  simp only [claimRoute]
  rw [if_neg hcond]
  simp [hn]

/-- C1: for a valid `/claim` request, the route rejects with the 403
"Ya ha sido registrado." response — carrying the summary (user name, prize
previously won, claim count and limit) — exactly when the number of prior
`registers` rows under the request dni in the same campaign has reached
`MAX_PRIZES_PER_PERSON` (default 1, so exactly when one or more prior rows
exist); with strictly fewer prior rows the request proceeds to the prize
listing phase. -/
theorem c1_dni_eligibility (req : ClaimRequest) (rand : ℚ) (rid : String)
    (fault : TxFault) (db : Db)
    (hname : orNull req.name ≠ none) (hstore : orNull req.storeId ≠ none)
    (hcamp : orNull req.campaign ≠ none) :
    ((∃ m d, (claimRoute req rand rid fault db).1 = .forbidden m d) ↔
      MAX_PRIZES_PER_PERSON ≤ (claimExisting req db).length)
    ∧ (MAX_PRIZES_PER_PERSON ≤ (claimExisting req db).length →
        claimRoute req rand rid fault db
          = (.forbidden "Ya ha sido registrado."
              (some (claimForbiddenDetails (claimExisting req db))), db)
        ∧ (claimForbiddenDetails (claimExisting req db)).count = (claimExisting req db).length
        ∧ (claimForbiddenDetails (claimExisting req db)).limit = MAX_PRIZES_PER_PERSON)
    ∧ ((claimExisting req db).length < MAX_PRIZES_PER_PERSON →
        claimRoute req rand rid fault db
          = claimProceed ((orNull req.name).getD "") ((orNull req.storeId).getD "")
              ((orNull req.campaign).getD "") (orNull req.photoUrl) (orNull req.phoneNumber)
              (orNull req.dni) rand rid fault db) := by
  have hcond : ¬(orNull req.name = none ∨ orNull req.storeId = none ∨ orNull req.campaign = none) := by
    simp only [not_or]
    exact ⟨hname, hstore, hcamp⟩
  refine ⟨?_, ?_, ?_⟩
  · constructor
    · intro ⟨m, d, hmd⟩
      by_contra hlt
      have hlim := Nat.lt_of_not_le hlt
      rw [claimRoute_proceed_of req rand rid fault db hcond hlim] at hmd
      exact claimProceed_fst_ne_forbidden _ _ _ _ _ _ _ _ _ _ m d hmd
    · intro hlim
      refine ⟨"Ya ha sido registrado.", some (claimForbiddenDetails (claimExisting req db)), ?_⟩
      rw [claimRoute_forbidden_of req rand rid fault db hcond hlim]
  · intro hlim
    exact ⟨claimRoute_forbidden_of req rand rid fault db hcond hlim, rfl, rfl⟩
  · intro hlim
    exact claimRoute_proceed_of req rand rid fault db hcond hlim

/-- Database with one prior register row (dni "123", campaign "c"), used by
the C1 witness. -/
def dbC1W : Db :=
  { stores := [{ id := "s1", name := "S", campaign := "c", is_active := true }]
    prizes := [{ id := "p1", store_id := "s1", name := "A", description := ""
                 initial_stock := 3, available_stock := 3 }]
    registers := [rowW] }

/-- Request repeating dni "123" in campaign "c", used by the C1 witness. -/
def reqC1W : ClaimRequest :=
  { name := some "Bob", storeId := some "s1", campaign := some "c"
    photoUrl := none, phoneNumber := none, dni := some "123" }

theorem c1_dni_eligibility_witness :
    (∃ m d, (claimRoute reqC1W (1/2 : ℚ) "r9" .noFault dbC1W).1 = .forbidden m d)
    ∧ claimRoute reqC1W (1/2 : ℚ) "r9" .noFault dbC1W
        = (.forbidden "Ya ha sido registrado."
            (some (claimForbiddenDetails (claimExisting reqC1W dbC1W))), dbC1W) :=
  ⟨((c1_dni_eligibility reqC1W (1/2) "r9" .noFault dbC1W (by decide) (by decide) (by decide)).1).mpr
      (by decide),
   ((c1_dni_eligibility reqC1W (1/2) "r9" .noFault dbC1W (by decide) (by decide) (by decide)).2.1
      (by decide)).1⟩

lemma variantClaimProceed_fst_ne_forbidden (name storeId campaign : String)
    (phU phN : Option String) (rand : ℚ) (rid : String) (fault : TxFault) (db : Db)
    (m : String) (d : Option ClaimDetails) :
    (variantClaimProceed name storeId campaign phU phN rand rid fault db).1
      ≠ .forbidden m d := by
  unfold variantClaimProceed
  dsimp only
  split_ifs with h
  · simp
  · split
    · simp only [variantClaimCatch]
      split_ifs <;> simp
    · split
      · simp
      · simp only [variantClaimCatch]
        split_ifs <;> simp

/-- The limit count computed by the `part_002` variant for a given request. -/
def variantExistingCount (req : VariantClaimRequest) (db : Db) : Nat :=
  variantLimitCount ((orNull req.phoneNumber).getD ((orNull req.name).getD ""))
    ((orNull req.name).getD "") ((orNull req.campaign).getD "") db

lemma variantClaimRoute_forbidden_of (req : VariantClaimRequest) (rand : ℚ) (rid : String)
    (fault : TxFault) (db : Db)
    (hcond : ¬(orNull req.name = none ∨ orNull req.storeId = none ∨ orNull req.campaign = none))
    (hlim : MAX_PRIZES_PER_PERSON ≤ variantExistingCount req db) :
    variantClaimRoute req rand rid fault db
      = (.forbidden "Límite alcanzado. Ya has reclamado 1 premio(s) con este identificador en esta campaña." none, db) := by
  unfold variantExistingCount at hlim
  simp only [variantClaimRoute]
  rw [if_neg hcond]
  simp [hlim]

lemma variantClaimRoute_proceed_of (req : VariantClaimRequest) (rand : ℚ) (rid : String)
    (fault : TxFault) (db : Db)
    (hcond : ¬(orNull req.name = none ∨ orNull req.storeId = none ∨ orNull req.campaign = none))
    (hlim : variantExistingCount req db < MAX_PRIZES_PER_PERSON) :
    variantClaimRoute req rand rid fault db
      = variantClaimProceed ((orNull req.name).getD "") ((orNull req.storeId).getD "")
          ((orNull req.campaign).getD "") (orNull req.photoUrl) (orNull req.phoneNumber)
          rand rid fault db := by
  have hn : ¬ MAX_PRIZES_PER_PERSON ≤ variantExistingCount req db := not_le.mpr hlim
  unfold variantExistingCount at hn
  simp only [variantClaimRoute]
  rw [if_neg hcond]
  simp [hn]

/-- Prior register row with no phone number, name "Ana", campaign "c":
overlaps a phone-carrying request only on the low-priority name key. -/
def rowAnaW : RegisterRow :=
  { id := "r0", name := "Ana", store_id := none, prize_id := none, campaign := "c"
    status := "REGISTERED", photo_url := none, phone_number := none, dni := none
    voucher_number := none, email := none }

/-- Database holding only the weak (name-only) prior row. -/
def dbC3W : Db := { stores := [], prizes := [], registers := [rowAnaW] }

/-- Request supplying a phone number (a higher-priority key) and the same
display name. -/
def reqC3W : VariantClaimRequest :=
  { name := some "Ana", storeId := some "s1", campaign := some "c"
    phoneNumber := some "999", photoUrl := none }

/-- C3 counterexample: the request supplies a phone number, the only prior
row overlaps solely on the lower-priority display name (it has no phone
number), yet the variant `/claim` blocks the request with 403 — the prior
row does block, so the claimed priority-order matching does not hold. -/
theorem c3_counterexample :
    orNull reqC3W.phoneNumber = some "999"
    ∧ (∀ r ∈ dbC3W.registers, r.phone_number = none ∧ r.name = "Ana" ∧ r.dni = none
        ∧ r.voucher_number = none)
    ∧ (variantClaimRoute reqC3W (1/2 : ℚ) "r1" .noFault dbC3W).1
        = .forbidden "Límite alcanzado. Ya has reclamado 1 premio(s) con este identificador en esta campaña." none := by
  refine ⟨by decide, by decide, ?_⟩
  rw [variantClaimRoute_forbidden_of reqC3W (1/2) "r1" .noFault dbC3W (by decide) (by decide)]

/-- C3 amended: no route implements the four-key priority. The `part_002`
variant blocks exactly when the count of prior same-campaign rows matching
the limit identifier (phone number when supplied, display name otherwise)
reaches the limit, where a row matches when its phone number equals the
identifier or it has no phone number and its name equals the request name —
so a phone-less row sharing the name blocks even when a phone number is
supplied, and only when no phone is supplied is name matching restricted to
phone-less rows. The main `/claim` matches on dni alone: its 403 outcome is
unchanged under any change of the request phone number. -/
theorem c3_matching_policy :
    (∀ (req : VariantClaimRequest) (rand : ℚ) (rid : String) (fault : TxFault) (db : Db),
        orNull req.name ≠ none → orNull req.storeId ≠ none → orNull req.campaign ≠ none →
        ((∃ m d, (variantClaimRoute req rand rid fault db).1 = .forbidden m d) ↔
          MAX_PRIZES_PER_PERSON ≤ variantExistingCount req db))
    ∧ (∀ (limitId nm camp : String) (r : RegisterRow),
        (((sqlOptEq r.phone_number (some limitId)
            || (r.phone_number == none && r.name == nm)) && r.campaign == camp) = true)
          ↔ (r.campaign = camp ∧
              (r.phone_number = some limitId ∨ (r.phone_number = none ∧ r.name = nm))))
    ∧ (∀ (req : ClaimRequest) (ph ph' : Option String) (rand : ℚ) (rid : String)
          (fault : TxFault) (db : Db) (m : String) (d : Option ClaimDetails),
        orNull req.name ≠ none → orNull req.storeId ≠ none → orNull req.campaign ≠ none →
        ((claimRoute { req with phoneNumber := ph } rand rid fault db).1 = .forbidden m d ↔
          (claimRoute { req with phoneNumber := ph' } rand rid fault db).1 = .forbidden m d)) := by
  refine ⟨?_, ?_, ?_⟩
  · intro req rand rid fault db hname hstore hcamp
    have hcond : ¬(orNull req.name = none ∨ orNull req.storeId = none ∨ orNull req.campaign = none) := by
      simp only [not_or]
      exact ⟨hname, hstore, hcamp⟩
    constructor
    · intro ⟨m, d, hmd⟩
      by_contra hlt
      have hlim := Nat.lt_of_not_le hlt
      rw [variantClaimRoute_proceed_of req rand rid fault db hcond hlim] at hmd
      exact variantClaimProceed_fst_ne_forbidden _ _ _ _ _ _ _ _ _ m d hmd
    · intro hlim
      refine ⟨"Límite alcanzado. Ya has reclamado 1 premio(s) con este identificador en esta campaña.", none, ?_⟩
      rw [variantClaimRoute_forbidden_of req rand rid fault db hcond hlim]
  · intro limitId nm camp r
    rcases hph : r.phone_number with _ | v <;> simp [sqlOptEq, hph] <;> tauto
  · intro req ph ph' rand rid fault db m d hname hstore hcamp
    have hcond : ∀ p : Option String,
        ¬(orNull (ClaimRequest.name { req with phoneNumber := p }) = none
          ∨ orNull (ClaimRequest.storeId { req with phoneNumber := p }) = none
          ∨ orNull (ClaimRequest.campaign { req with phoneNumber := p }) = none) := by
      intro p
      simp only [not_or]
      exact ⟨hname, hstore, hcamp⟩
    have hsame : claimExisting { req with phoneNumber := ph } db
        = claimExisting { req with phoneNumber := ph' } db := rfl
    by_cases hlim : MAX_PRIZES_PER_PERSON ≤ (claimExisting { req with phoneNumber := ph } db).length
    · rw [claimRoute_forbidden_of _ rand rid fault db (hcond ph) hlim,
        claimRoute_forbidden_of _ rand rid fault db (hcond ph') (hsame ▸ hlim)]
      rw [hsame]
    · have hlt := Nat.lt_of_not_le hlim
      rw [claimRoute_proceed_of _ rand rid fault db (hcond ph) hlt,
        claimRoute_proceed_of _ rand rid fault db (hcond ph') (hsame ▸ hlt)]
      constructor
      · intro h
        exact absurd h (claimProceed_fst_ne_forbidden _ _ _ _ _ _ _ _ _ _ m d)
      · intro h
        exact absurd h (claimProceed_fst_ne_forbidden _ _ _ _ _ _ _ _ _ _ m d)

theorem c3_matching_policy_witness :
    ((∃ m d, (variantClaimRoute reqC3W (1/2 : ℚ) "r1" .noFault dbC3W).1 = .forbidden m d) ↔
      MAX_PRIZES_PER_PERSON ≤ variantExistingCount reqC3W dbC3W)
    ∧ ((((sqlOptEq rowAnaW.phone_number (some "999")
          || (rowAnaW.phone_number == none && rowAnaW.name == "Ana")) && rowAnaW.campaign == "c") = true)
        ↔ (rowAnaW.campaign = "c" ∧
            (rowAnaW.phone_number = some "999" ∨ (rowAnaW.phone_number = none ∧ rowAnaW.name = "Ana"))))
    ∧ ((claimRoute { reqC1W with phoneNumber := some "777" } (1/2 : ℚ) "r1" .noFault dbC1W).1
          = .forbidden "x" none ↔
        (claimRoute { reqC1W with phoneNumber := none } (1/2 : ℚ) "r1" .noFault dbC1W).1
          = .forbidden "x" none) :=
  ⟨c3_matching_policy.1 reqC3W (1/2) "r1" .noFault dbC3W (by decide) (by decide) (by decide),
   c3_matching_policy.2.1 "999" "Ana" "c" rowAnaW,
   c3_matching_policy.2.2 reqC1W (some "777") none (1/2) "r1" .noFault dbC1W "x" none
     (by decide) (by decide) (by decide)⟩

lemma claimTxCallback_error_indep (fault : TxFault) (pid : String) (row : RegisterRow)
    (st : List StoreRow) (pz : List PrizeRow) (regs regs' : List RegisterRow) (e : String) :
    claimTxCallback fault pid row { stores := st, prizes := pz, registers := regs } = .error e ↔
    claimTxCallback fault pid row { stores := st, prizes := pz, registers := regs' } = .error e := by
  unfold claimTxCallback lockedStockRead decrementStock insertRegister
  dsimp only
  split_ifs <;> simp

/-- C2 counterexample: with an existing `CLAIMED` register row for dni
"123" in campaign "c", a `/register-spin` call for the same dni and
campaign succeeds and commits a second allocation — afterwards two
`CLAIMED` rows exist under that dni and campaign. -/
theorem c2_counterexample :
    (rowW ∈ dbC1W.registers ∧ rowW.status = "CLAIMED" ∧ rowW.dni = some "123"
      ∧ rowW.campaign = "c")
    ∧ (∃ m p rid,
        (registerSpinRoute (some "s1") (some "c") (some "Bob") (some "123") (some "b@x")
          (1/2 : ℚ) "r2" .noFault dbC1W).1 = .ok m p rid)
    ∧ ((registerSpinRoute (some "s1") (some "c") (some "Bob") (some "123") (some "b@x")
          (1/2 : ℚ) "r2" .noFault dbC1W).2.registers.filter
        (fun r => sqlOptEq r.dni (some "123") && r.campaign == "c"
          && r.status == "CLAIMED")).length = 2 := by
  refine ⟨by decide, ?_, ?_⟩
  · refine ⟨"¡Registro exitoso y premio asignado!", "A", "r2", ?_⟩
    simp [registerSpinRoute, availablePrizesQuery, weightedRandom, totalWeight, drawLoop,
      transaction, claimTxCallback, lockedStockRead, decrementStock, insertRegister,
      orNull, sqlOptEq, registerSpinCatch, dbC1W, rowW]
    norm_num
  · simp [registerSpinRoute, availablePrizesQuery, weightedRandom, totalWeight, drawLoop,
      transaction, claimTxCallback, lockedStockRead, decrementStock, insertRegister,
      orNull, sqlOptEq, registerSpinCatch, dbC1W, rowW]
    norm_num [sqlOptEq]

/-- C2 amended: only the `/claim` entry point enforces the one-claim rule —
a prior register row under the request dni and campaign (in particular a
`CLAIMED` one) makes it reject with 403 and commit nothing.  The
`/register-spin` entry point performs no eligibility check at all: its
response is identical whatever prior register rows exist, so an identity
holding a `CLAIMED` row can be allocated again through it (and through the
identity-less `/spin-roulette`). -/
theorem c2_duplicate_prevention :
    (∀ (req : ClaimRequest) (rand : ℚ) (rid : String) (fault : TxFault) (db : Db)
        (dniV : String) (row : RegisterRow),
        orNull req.name ≠ none → orNull req.storeId ≠ none → orNull req.campaign ≠ none →
        orNull req.dni = some dniV →
        row ∈ db.registers → row.dni = some dniV →
        row.campaign = (orNull req.campaign).getD "" →
        ∃ m d, claimRoute req rand rid fault db = (.forbidden m d, db))
    ∧ (∀ (storeId campaign name dni email : Option String) (rand : ℚ) (rid : String)
          (fault : TxFault) (stores : List StoreRow) (przs : List PrizeRow)
          (regs regs' : List RegisterRow),
        (registerSpinRoute storeId campaign name dni email rand rid fault
            { stores := stores, prizes := przs, registers := regs }).1
          = (registerSpinRoute storeId campaign name dni email rand rid fault
              { stores := stores, prizes := przs, registers := regs' }).1) := by
  constructor
  · intro req rand rid fault db dniV row hname hstore hcamp hdni hmem hrdni hrcamp
    have hcond : ¬(orNull req.name = none ∨ orNull req.storeId = none ∨ orNull req.campaign = none) := by
      simp only [not_or]
      exact ⟨hname, hstore, hcamp⟩
    have hfil : row ∈ db.registers.filter
        (fun r => sqlOptEq r.dni (orNull req.dni) && r.campaign == (orNull req.campaign).getD "") := by
      rw [List.mem_filter]
      refine ⟨hmem, ?_⟩
      simp [sqlOptEq, hrdni, hdni, hrcamp]
    have hlen : 0 < (db.registers.filter
        (fun r => sqlOptEq r.dni (orNull req.dni) && r.campaign == (orNull req.campaign).getD "")).length :=
      List.length_pos.mpr (List.ne_nil_of_mem hfil)
    have hlim : MAX_PRIZES_PER_PERSON ≤ (claimExisting req db).length := by
      unfold claimExisting existingByDni
      simpa [MAX_PRIZES_PER_PERSON] using hlen
    exact ⟨_, _, claimRoute_forbidden_of req rand rid fault db hcond hlim⟩
  · intro sid camp nm dniV em rand rid fault st pz regs regs'
    by_cases hval : orNull sid = none ∨ orNull camp = none ∨ orNull nm = none
        ∨ orNull dniV = none ∨ orNull em = none
    · simp [registerSpinRoute, hval]
    · simp only [registerSpinRoute, if_neg hval]
      have hq : availablePrizesQuery ((orNull sid).getD "")
            { stores := st, prizes := pz, registers := regs' }
          = availablePrizesQuery ((orNull sid).getD "")
            { stores := st, prizes := pz, registers := regs } := rfl
      rw [hq]
      by_cases hlen : (availablePrizesQuery ((orNull sid).getD "")
          { stores := st, prizes := pz, registers := regs }).length = 0
      · simp [hlen]
      · simp only [hlen, if_false]
        rcases hwr : weightedRandom (availablePrizesQuery ((orNull sid).getD "")
            { stores := st, prizes := pz, registers := regs }) rand with e | wp
        · simp
        · simp only []
          rcases hcb : claimTxCallback fault wp.id
              { id := rid, name := (orNull nm).getD "", store_id := some ((orNull sid).getD "")
                prize_id := some wp.id, campaign := (orNull camp).getD "", status := "CLAIMED"
                photo_url := none, phone_number := none, dni := some ((orNull dniV).getD "")
                voucher_number := none, email := some ((orNull em).getD "") }
              { stores := st, prizes := pz, registers := regs } with e | d1
          · have hcb' := (claimTxCallback_error_indep fault wp.id _ st pz regs regs' e).mp hcb
            rw [transaction_error_eq _ _ _ hcb, transaction_error_eq _ _ _ hcb']
          · rcases hcb2 : claimTxCallback fault wp.id
                { id := rid, name := (orNull nm).getD "", store_id := some ((orNull sid).getD "")
                  prize_id := some wp.id, campaign := (orNull camp).getD "", status := "CLAIMED"
                  photo_url := none, phone_number := none, dni := some ((orNull dniV).getD "")
                  voucher_number := none, email := some ((orNull em).getD "") }
                { stores := st, prizes := pz, registers := regs' } with e2 | d2
            · have := (claimTxCallback_error_indep fault wp.id _ st pz regs regs' e2).mpr hcb2
              rw [this] at hcb
              exact absurd hcb (by simp)
            · rw [transaction_ok_eq _ _ _ hcb, transaction_ok_eq _ _ _ hcb2]

theorem c2_duplicate_prevention_witness :
    (∃ m d, claimRoute reqC1W (1/2 : ℚ) "r7" .noFault dbC1W = (.forbidden m d, dbC1W))
    ∧ (registerSpinRoute (some "s1") (some "c") (some "Bob") (some "123") (some "b@x")
          (1/2 : ℚ) "r2" .noFault
          { stores := [], prizes := [], registers := [rowW] }).1
        = (registerSpinRoute (some "s1") (some "c") (some "Bob") (some "123") (some "b@x")
            (1/2 : ℚ) "r2" .noFault
            { stores := [], prizes := [], registers := [] }).1 :=
  ⟨c2_duplicate_prevention.1 reqC1W (1/2) "r7" .noFault dbC1W "123" rowW
      (by decide) (by decide) (by decide) (by decide) (by decide) (by decide) (by decide),
   c2_duplicate_prevention.2 (some "s1") (some "c") (some "Bob") (some "123") (some "b@x")
      (1/2) "r2" .noFault [] [] [rowW] []⟩

lemma transaction_fst_ok_inv (db : Db) (cb : Db → Except String Db) (d1 : Db)
    (h : (transaction db cb).1 = .ok d1) :
    cb db = .ok d1 ∧ (transaction db cb).2 = d1 := by
  unfold transaction at *
  rcases hcb : cb db with e | d <;> rw [hcb] at h <;> simp_all

lemma claimTxCallback_ok_inv (db : Db) (fault : TxFault) (pid : String) (row : RegisterRow)
    (d1 : Db) (h : claimTxCallback fault pid row db = .ok d1) :
    fault = .noFault ∧ lockedStockRead pid db ≠ [] ∧
    d1 = insertRegister row (decrementStock pid db) := by
  unfold claimTxCallback at h
  by_cases h1 : fault = .failRead
  · rw [if_pos h1] at h
    exact absurd h (by simp)
  · rw [if_neg h1] at h
    by_cases h2 : (lockedStockRead pid db).length = 0
    · rw [if_pos h2] at h
      exact absurd h (by simp)
    · rw [if_neg h2] at h
      by_cases h3 : fault = .failUpdate
      · rw [if_pos h3] at h
        exact absurd h (by simp)
      · rw [if_neg h3] at h
        dsimp only at h
        by_cases h4 : fault = .failInsert
        · rw [if_pos h4] at h
          exact absurd h (by simp)
        · rw [if_neg h4] at h
          refine ⟨?_, ?_, ?_⟩
          · cases fault with
            | noFault => rfl
            | failRead => exact absurd rfl h1
            | failUpdate => exact absurd rfl h3
            | failInsert => exact absurd rfl h4
          · intro hnil
            exact h2 (by simp [hnil])
          · have h' := h
            simp only [Except.ok.injEq] at h'
            exact h'.symm

lemma lockedStockRead_exists (db : Db) (pid : String)
    (h : lockedStockRead pid db ≠ []) :
    ∃ q ∈ db.prizes, q.id = pid ∧ 0 < q.available_stock := by
  unfold lockedStockRead at h
  rcases hfil : db.prizes.filter (fun p => p.id == pid && decide (0 < p.available_stock)) with _ | ⟨q, rest⟩
  · rw [hfil] at h
    simp at h
  · have hq : q ∈ db.prizes.filter (fun p => p.id == pid && decide (0 < p.available_stock)) := by
      rw [hfil]
      exact List.mem_cons_self q rest
    rw [List.mem_filter] at hq
    obtain ⟨hmem, hpred⟩ := hq
    simp only [Bool.and_eq_true, beq_iff_eq, decide_eq_true_eq] at hpred
    exact ⟨q, hmem, hpred.1, hpred.2⟩

/-- C9: every successful `/claim` allocation commits exactly the decrement
of the selected prize's `available_stock` by 1 (only rows with the winning
id are touched, every other prize row is carried over unchanged) and
appends exactly one `CLAIMED` register row referencing the store and the
winning prize; stores and all other ledger rows are untouched, and the
winning prize had positive stock at commit time. -/
theorem c9_commit_effect (req : ClaimRequest) (rand : ℚ) (rid : String) (fault : TxFault)
    (db : Db) (msg prz regId : String) (db' : Db)
    (h : claimRoute req rand rid fault db = (.ok msg prz regId, db')) :
    ∃ (winId : String) (row : RegisterRow) (q : PrizeRow),
      q ∈ db.prizes ∧ q.id = winId ∧ 0 < q.available_stock ∧
      row.id = rid ∧ row.status = "CLAIMED" ∧ row.prize_id = some winId ∧
      row.store_id = orNull req.storeId ∧
      db' = insertRegister row (decrementStock winId db) ∧
      db'.registers = db.registers ++ [row] ∧
      db'.stores = db.stores ∧
      (∀ p ∈ db.prizes, p.id ≠ winId → p ∈ db'.prizes) ∧
      (∀ p ∈ db.prizes, p.id = winId →
        ({ p with available_stock := p.available_stock - 1 } : PrizeRow) ∈ db'.prizes) := by
  unfold claimRoute at h
  by_cases hval : orNull req.name = none ∨ orNull req.storeId = none ∨ orNull req.campaign = none
  · rw [if_pos hval] at h
    simp at h
  · rw [if_neg hval] at h
    dsimp only at h
    by_cases hlim : MAX_PRIZES_PER_PERSON ≤
        (existingByDni (orNull req.dni) ((orNull req.campaign).getD "") db).length
    · rw [if_pos hlim] at h
      simp at h
    · rw [if_neg hlim] at h
      unfold claimProceed at h
      dsimp only at h
      by_cases hq : (availablePrizesQuery ((orNull req.storeId).getD "") db).length = 0
      · rw [if_pos hq] at h
        simp at h
      · rw [if_neg hq] at h
        rcases hwr : weightedRandom (availablePrizesQuery ((orNull req.storeId).getD "") db) rand
          with e | wp
        · rw [hwr] at h
          dsimp only at h
          unfold claimCatch at h
          split_ifs at h <;> simp at h
        · rw [hwr] at h
          dsimp only at h
          split at h
          next d1 heq =>
            obtain ⟨hcb, hsnd⟩ := transaction_fst_ok_inv db _ d1 heq
            obtain ⟨-, hne, hd1⟩ := claimTxCallback_ok_inv db fault wp.id _ d1 hcb
            obtain ⟨q, hqmem, hqid, hqpos⟩ := lockedStockRead_exists db wp.id hne
            rw [Prod.mk.injEq] at h
            obtain ⟨-, hdb'⟩ := h
            have hdb'eq : db' = insertRegister
                { id := rid, name := (orNull req.name).getD ""
                  store_id := some ((orNull req.storeId).getD "")
                  prize_id := some wp.id, campaign := (orNull req.campaign).getD ""
                  status := "CLAIMED", photo_url := orNull req.photoUrl
                  phone_number := orNull req.phoneNumber, dni := orNull req.dni
                  voucher_number := none, email := none }
                (decrementStock wp.id db) := by
              rw [← hdb', hsnd, hd1]
            refine ⟨wp.id, _, q, hqmem, hqid, hqpos, rfl, rfl, rfl, ?_, hdb'eq, ?_, ?_, ?_, ?_⟩
            · rcases hsid : orNull req.storeId with _ | s
              · exact absurd (Or.inr (Or.inl hsid)) hval
              · simp
            · rw [hdb'eq]
              simp [insertRegister, decrementStock]
            · rw [hdb'eq]
              simp [insertRegister, decrementStock]
            · intro p hp hpne
              rw [hdb'eq]
              simp only [insertRegister, decrementStock, List.mem_map]
              exact ⟨p, hp, by simp [hpne]⟩
            · intro p hp hpe
              rw [hdb'eq]
              simp only [insertRegister, decrementStock, List.mem_map]
              exact ⟨p, hp, by simp [hpe]⟩
          next e heq =>
            unfold claimCatch at h
            split_ifs at h <;> simp at h

/-- Store with one prize in stock and an empty ledger, used by C9. -/
def dbC9W : Db :=
  { stores := [{ id := "s1", name := "S", campaign := "c", is_active := true }]
    prizes := [{ id := "p1", store_id := "s1", name := "A", description := ""
                 initial_stock := 3, available_stock := 3 }]
    registers := [] }

/-- The register row inserted by the successful C9 witness run. -/
def rowC9W : RegisterRow :=
  { id := "r1", name := "Bob", store_id := some "s1", prize_id := some "p1"
    campaign := "c", status := "CLAIMED", photo_url := none, phone_number := none
    dni := some "123", voucher_number := none, email := none }

/-- Database state after the successful C9 witness run. -/
def dbC9AfterW : Db :=
  { stores := [{ id := "s1", name := "S", campaign := "c", is_active := true }]
    prizes := [{ id := "p1", store_id := "s1", name := "A", description := ""
                 initial_stock := 3, available_stock := 2 }]
    registers := [rowC9W] }

theorem c9_commit_effect_witness :
    ∃ (winId : String) (row : RegisterRow) (q : PrizeRow),
      q ∈ dbC9W.prizes ∧ q.id = winId ∧ 0 < q.available_stock ∧
      row.id = "r1" ∧ row.status = "CLAIMED" ∧ row.prize_id = some winId ∧
      row.store_id = orNull reqC1W.storeId ∧
      dbC9AfterW = insertRegister row (decrementStock winId dbC9W) ∧
      dbC9AfterW.registers = dbC9W.registers ++ [row] ∧
      dbC9AfterW.stores = dbC9W.stores ∧
      (∀ p ∈ dbC9W.prizes, p.id ≠ winId → p ∈ dbC9AfterW.prizes) ∧
      (∀ p ∈ dbC9W.prizes, p.id = winId →
        ({ p with available_stock := p.available_stock - 1 } : PrizeRow) ∈ dbC9AfterW.prizes) :=
  c9_commit_effect reqC1W (1/2) "r1" .noFault dbC9W
    "¡Premio entregado con éxito!" "A" "r1" dbC9AfterW (by
      simp [claimRoute, claimProceed, existingByDni, availablePrizesQuery, weightedRandom,
        totalWeight, drawLoop, transaction, claimTxCallback, lockedStockRead, decrementStock,
        insertRegister, orNull, sqlOptEq, claimCatch, claimForbiddenDetails,
        MAX_PRIZES_PER_PERSON, noStockMsg, dbC9W, dbC9AfterW, rowC9W, reqC1W]
      norm_num)

lemma transaction_claimTx_snd (db : Db) (fault : TxFault) (pid : String) (row : RegisterRow) :
    (transaction db (claimTxCallback fault pid row)).2 = db ∨
    ∃ pid' row', lockedStockRead pid' db ≠ [] ∧
      (transaction db (claimTxCallback fault pid row)).2
        = insertRegister row' (decrementStock pid' db) := by
  rcases hcb : claimTxCallback fault pid row db with e | d1
  · left
    rw [transaction_error_eq db _ e hcb]
  · right
    obtain ⟨-, hne, hd1⟩ := claimTxCallback_ok_inv db fault pid row d1 hcb
    refine ⟨pid, row, hne, ?_⟩
    rw [transaction_ok_eq db _ d1 hcb]
    exact hd1

lemma claimRoute_snd (req : ClaimRequest) (rand : ℚ) (rid : String) (fault : TxFault) (db : Db) :
    (claimRoute req rand rid fault db).2 = db ∨
    ∃ pid row, lockedStockRead pid db ≠ [] ∧
      (claimRoute req rand rid fault db).2 = insertRegister row (decrementStock pid db) := by
  unfold claimRoute
  split_ifs with h1
  · left; rfl
  · dsimp only
    split_ifs with h2
    · left; rfl
    · unfold claimProceed
      dsimp only
      split_ifs with h3
      · left; rfl
      · rcases hwr : weightedRandom (availablePrizesQuery ((orNull req.storeId).getD "") db) rand
          with e | wp
        · simp only [hwr]
          left; trivial
        · simp only [hwr]
          split
          · exact transaction_claimTx_snd db fault wp.id _
          · exact transaction_claimTx_snd db fault wp.id _

lemma spinRouletteRoute_snd (storeId campaign : Option String) (rand : ℚ)
    (rid anon : String) (fault : TxFault) (db : Db) :
    (spinRouletteRoute storeId campaign rand rid anon fault db).2 = db ∨
    ∃ pid row, lockedStockRead pid db ≠ [] ∧
      (spinRouletteRoute storeId campaign rand rid anon fault db).2
        = insertRegister row (decrementStock pid db) := by
  unfold spinRouletteRoute
  split_ifs with h1
  · left; rfl
  · dsimp only
    split_ifs with h2
    · left; rfl
    · rcases hwr : weightedRandom (availablePrizesQuery ((orNull storeId).getD "") db) rand
        with e | wp
      · simp only [hwr]
        left; trivial
      · simp only [hwr]
        split
        · exact transaction_claimTx_snd db fault wp.id _
        · exact transaction_claimTx_snd db fault wp.id _

lemma registerSpinRoute_snd (storeId campaign name dni email : Option String) (rand : ℚ)
    (rid : String) (fault : TxFault) (db : Db) :
    (registerSpinRoute storeId campaign name dni email rand rid fault db).2 = db ∨
    ∃ pid row, lockedStockRead pid db ≠ [] ∧
      (registerSpinRoute storeId campaign name dni email rand rid fault db).2
        = insertRegister row (decrementStock pid db) := by
  unfold registerSpinRoute
  split_ifs with h1
  · left; rfl
  · dsimp only
    split_ifs with h2
    · left; rfl
    · rcases hwr : weightedRandom (availablePrizesQuery ((orNull storeId).getD "") db) rand
        with e | wp
      · simp only [hwr]
        left; trivial
      · simp only [hwr]
        split
        · exact transaction_claimTx_snd db fault wp.id _
        · exact transaction_claimTx_snd db fault wp.id _

lemma variantClaimRoute_snd (req : VariantClaimRequest) (rand : ℚ) (rid : String)
    (fault : TxFault) (db : Db) :
    (variantClaimRoute req rand rid fault db).2 = db ∨
    ∃ pid row, lockedStockRead pid db ≠ [] ∧
      (variantClaimRoute req rand rid fault db).2
        = insertRegister row (decrementStock pid db) := by
  unfold variantClaimRoute
  split_ifs with h1
  · left; rfl
  · dsimp only
    split_ifs with h2
    · left; rfl
    · unfold variantClaimProceed
      dsimp only
      split_ifs with h3
      · left; rfl
      · rcases hwr : weightedRandom (availablePrizesQuery ((orNull req.storeId).getD "") db) rand
          with e | wp
        · simp only [hwr]
          left; trivial
        · simp only [hwr]
          split
          · exact transaction_claimTx_snd db fault wp.id _
          · exact transaction_claimTx_snd db fault wp.id _

lemma prizeIds_decrement (db : Db) (pid : String) :
    (decrementStock pid db).prizes.map (fun p => p.id) = db.prizes.map (fun p => p.id) := by
  simp only [decrementStock, List.map_map]
  apply List.map_congr_left
  intro p _
  simp only [Function.comp_apply]
  split <;> rfl

lemma dbInv_insert_dec (db : Db) (pid : String) (row : RegisterRow)
    (hinv : dbInv db) (hne : lockedStockRead pid db ≠ []) :
    dbInv (insertRegister row (decrementStock pid db)) := by
  obtain ⟨hnd, hnn⟩ := hinv
  obtain ⟨q, hqmem, hqid, hqpos⟩ := lockedStockRead_exists db pid hne
  constructor
  · show ((insertRegister row (decrementStock pid db)).prizes.map (fun p => p.id)).Nodup
    have : (insertRegister row (decrementStock pid db)).prizes
        = (decrementStock pid db).prizes := rfl
    rw [this, prizeIds_decrement]
    exact hnd
  · intro p' hp'
    have hp'' : p' ∈ (decrementStock pid db).prizes := hp'
    simp only [decrementStock, List.mem_map] at hp''
    obtain ⟨p, hp, hfp⟩ := hp''
    by_cases hid : p.id == pid
    · have hpq : p = q := by
        apply List.inj_on_of_nodup_map hnd hp hqmem
        rw [hqid]
        simpa using hid
      rw [← hfp]
      simp only [hid, if_true]
      have : 0 < p.available_stock := hpq ▸ hqpos
      omega
    · rw [← hfp]
      simp only [hid, if_false]
      exact hnn p hp

lemma stockBounded_insert_dec (db : Db) (pid : String) (row : RegisterRow)
    (hb : stockBounded db) :
    stockBounded (insertRegister row (decrementStock pid db)) := by
  intro p' hp'
  have hp'' : p' ∈ (decrementStock pid db).prizes := hp'
  simp only [decrementStock, List.mem_map] at hp''
  obtain ⟨p, hp, hfp⟩ := hp''
  by_cases hid : p.id == pid
  · rw [← hfp]
    simp only [hid, if_true]
    have := hb p hp
    omega
  · rw [← hfp]
    simp only [hid, if_false]
    exact hb p hp

lemma dbInv_step (db : Db) (op : SysOp) (hinv : dbInv db) : dbInv (step db op) := by
  obtain ⟨hnd, hnn⟩ := hinv
  cases op with
  | createPrize newId sid nm desc st =>
    have hstep : step db (SysOp.createPrize newId sid nm desc st)
        = (createPrizeRoute newId sid nm desc st db).2 := rfl
    rw [hstep]
    unfold createPrizeRoute
    split_ifs with g1 g2 g3
    · exact ⟨hnd, hnn⟩
    · exact ⟨hnd, hnn⟩
    · exact ⟨hnd, hnn⟩
    · constructor
      · simp only [List.map_append, List.map_cons, List.map_nil]
        rw [List.nodup_append]
        refine ⟨hnd, List.nodup_singleton _, ?_⟩
        intro x hx hx'
        simp only [List.mem_singleton] at hx'
        simp only [List.mem_map] at hx
        obtain ⟨p, hp, hpid⟩ := hx
        refine g3 ?_
        rw [List.any_eq_true]
        refine ⟨p, hp, ?_⟩
        simp [hpid, hx']
      · intro p hp
        rw [List.mem_append] at hp
        rcases hp with hp | hp
        · exact hnn p hp
        · simp only [List.mem_singleton] at hp
          subst hp
          have hst : ¬ st < 0 := by
            intro hlt
            exact g1 (by simp [hlt])
          dsimp only
          omega
  | updatePrize pid nm desc st =>
    have hstep : step db (SysOp.updatePrize pid nm desc st)
        = (updatePrizeRoute pid nm desc st db).2 := rfl
    rw [hstep]
    cases st with
    | some v =>
      unfold updatePrizeRoute
      dsimp only
      split_ifs with g1 g2
      · exact ⟨hnd, hnn⟩
      · exact ⟨hnd, hnn⟩
      · constructor
        · simp only [List.map_map]
          have : db.prizes.map ((fun p => p.id) ∘ (fun p =>
              if p.id == pid then
                { p with name := (orNull nm).getD p.name
                         description := (orNull desc).getD p.description
                         available_stock := v }
              else p)) = db.prizes.map (fun p => p.id) := by
            apply List.map_congr_left
            intro p _
            simp only [Function.comp_apply]
            split <;> rfl
          rw [this]
          exact hnd
        · intro p' hp'
          simp only [List.mem_map] at hp'
          obtain ⟨p, hp, hfp⟩ := hp'
          by_cases h : p.id == pid
          · rw [← hfp]
            simp only [h, if_true]
            omega
          · rw [← hfp]
            simp only [h, if_false]
            exact hnn p hp
    | none =>
      unfold updatePrizeRoute
      dsimp only
      split_ifs with g1 g2
      · exact ⟨hnd, hnn⟩
      · exact ⟨hnd, hnn⟩
      · constructor
        · simp only [List.map_map]
          have : db.prizes.map ((fun p => p.id) ∘ (fun p =>
              if p.id == pid then
                { p with name := (orNull nm).getD p.name
                         description := (orNull desc).getD p.description }
              else p)) = db.prizes.map (fun p => p.id) := by
            apply List.map_congr_left
            intro p _
            simp only [Function.comp_apply]
            split <;> rfl
          rw [this]
          exact hnd
        · intro p' hp'
          simp only [List.mem_map] at hp'
          obtain ⟨p, hp, hfp⟩ := hp'
          by_cases h : p.id == pid
          · rw [← hfp]
            simp only [h, if_true]
            exact hnn p hp
          · rw [← hfp]
            simp only [h, if_false]
            exact hnn p hp
  | claim req rand rid fault =>
    have hstep : step db (SysOp.claim req rand rid fault)
        = (claimRoute req rand rid fault db).2 := rfl
    rcases claimRoute_snd req rand rid fault db with hl | ⟨pid, row, hne, hr⟩
    · rw [hstep, hl]
      exact ⟨hnd, hnn⟩
    · rw [hstep, hr]
      exact dbInv_insert_dec db pid row ⟨hnd, hnn⟩ hne
  | spinRoulette sid camp rand rid anon fault =>
    have hstep : step db (SysOp.spinRoulette sid camp rand rid anon fault)
        = (spinRouletteRoute sid camp rand rid anon fault db).2 := rfl
    rcases spinRouletteRoute_snd sid camp rand rid anon fault db with hl | ⟨pid, row, hne, hr⟩
    · rw [hstep, hl]
      exact ⟨hnd, hnn⟩
    · rw [hstep, hr]
      exact dbInv_insert_dec db pid row ⟨hnd, hnn⟩ hne
  | registerSpin sid camp nm dniV em rand rid fault =>
    have hstep : step db (SysOp.registerSpin sid camp nm dniV em rand rid fault)
        = (registerSpinRoute sid camp nm dniV em rand rid fault db).2 := rfl
    rcases registerSpinRoute_snd sid camp nm dniV em rand rid fault db with hl | ⟨pid, row, hne, hr⟩
    · rw [hstep, hl]
      exact ⟨hnd, hnn⟩
    · rw [hstep, hr]
      exact dbInv_insert_dec db pid row ⟨hnd, hnn⟩ hne
  | variantClaim req rand rid fault =>
    have hstep : step db (SysOp.variantClaim req rand rid fault)
        = (variantClaimRoute req rand rid fault db).2 := rfl
    rcases variantClaimRoute_snd req rand rid fault db with hl | ⟨pid, row, hne, hr⟩
    · rw [hstep, hl]
      exact ⟨hnd, hnn⟩
    · rw [hstep, hr]
      exact dbInv_insert_dec db pid row ⟨hnd, hnn⟩ hne

lemma stockBounded_step (db : Db) (op : SysOp) (hb : stockBounded db)
    (hop : isStockAdjust op = false) : stockBounded (step db op) := by
  cases op with
  | createPrize newId sid nm desc st =>
    have hstep : step db (SysOp.createPrize newId sid nm desc st)
        = (createPrizeRoute newId sid nm desc st db).2 := rfl
    rw [hstep]
    unfold createPrizeRoute
    split_ifs with g1 g2 g3
    · exact hb
    · exact hb
    · exact hb
    · intro p hp
      rw [List.mem_append] at hp
      rcases hp with hp | hp
      · exact hb p hp
      · simp only [List.mem_singleton] at hp
        subst hp
        dsimp only
        omega
  | updatePrize pid nm desc st =>
    cases st with
    | some v => simp [isStockAdjust] at hop
    | none =>
      have hstep : step db (SysOp.updatePrize pid nm desc none)
          = (updatePrizeRoute pid nm desc none db).2 := rfl
      rw [hstep]
      unfold updatePrizeRoute
      dsimp only
      split_ifs with g1 g2
      · exact hb
      · exact hb
      · intro p' hp'
        simp only [List.mem_map] at hp'
        obtain ⟨p, hp, hfp⟩ := hp'
        by_cases h : p.id == pid
        · rw [← hfp]
          simp only [h, if_true]
          exact hb p hp
        · rw [← hfp]
          simp only [h, if_false]
          exact hb p hp
  | claim req rand rid fault =>
    have hstep : step db (SysOp.claim req rand rid fault)
        = (claimRoute req rand rid fault db).2 := rfl
    rcases claimRoute_snd req rand rid fault db with hl | ⟨pid, row, hne, hr⟩
    · rw [hstep, hl]; exact hb
    · rw [hstep, hr]; exact stockBounded_insert_dec db pid row hb
  | spinRoulette sid camp rand rid anon fault =>
    have hstep : step db (SysOp.spinRoulette sid camp rand rid anon fault)
        = (spinRouletteRoute sid camp rand rid anon fault db).2 := rfl
    rcases spinRouletteRoute_snd sid camp rand rid anon fault db with hl | ⟨pid, row, hne, hr⟩
    · rw [hstep, hl]; exact hb
    · rw [hstep, hr]; exact stockBounded_insert_dec db pid row hb
  | registerSpin sid camp nm dniV em rand rid fault =>
    have hstep : step db (SysOp.registerSpin sid camp nm dniV em rand rid fault)
        = (registerSpinRoute sid camp nm dniV em rand rid fault db).2 := rfl
    rcases registerSpinRoute_snd sid camp nm dniV em rand rid fault db with hl | ⟨pid, row, hne, hr⟩
    · rw [hstep, hl]; exact hb
    · rw [hstep, hr]; exact stockBounded_insert_dec db pid row hb
  | variantClaim req rand rid fault =>
    have hstep : step db (SysOp.variantClaim req rand rid fault)
        = (variantClaimRoute req rand rid fault db).2 := rfl
    rcases variantClaimRoute_snd req rand rid fault db with hl | ⟨pid, row, hne, hr⟩
    · rw [hstep, hl]; exact hb
    · rw [hstep, hr]; exact stockBounded_insert_dec db pid row hb

/-- C5 amended: starting from a well-formed database (unique prize ids,
non-negative stock), after any sequence of the modelled operations every
prize still has `0 ≤ available_stock` — no operation drives stock below
zero.  The upper bound `available_stock ≤ initial_stock` is preserved by
every operation except the admin stock adjustment: it holds after any
sequence that contains no `updatePrize … (some v)` operation. -/
theorem c5_stock_invariant (ops : List SysOp) (db : Db) (hinv : dbInv db) :
    dbInv (applyOps db ops)
    ∧ (∀ p ∈ (applyOps db ops).prizes, 0 ≤ p.available_stock)
    ∧ ((stockBounded db ∧ ∀ op ∈ ops, isStockAdjust op = false) →
        stockBounded (applyOps db ops)) := by
  induction ops generalizing db with
  | nil =>
    exact ⟨hinv, hinv.2, fun h => h.1⟩
  | cons op rest ih =>
    have hstep : applyOps db (op :: rest) = applyOps (step db op) rest := rfl
    rw [hstep]
    have hinv' := dbInv_step db op hinv
    obtain ⟨ih1, ih2, ih3⟩ := ih (step db op) hinv'
    refine ⟨ih1, ih2, ?_⟩
    rintro ⟨hb, hops⟩
    exact ih3 ⟨stockBounded_step db op hb (hops op (List.mem_cons_self op rest)),
      fun o ho => hops o (List.mem_cons_of_mem op ho)⟩

/-- Database with one active store and no prizes, used for C5. -/
def dbStoreW : Db :=
  { stores := [{ id := "s1", name := "S", campaign := "c", is_active := true }]
    prizes := [], registers := [] }

/-- C5 counterexample: create a prize with `initial_stock = 1`, then use the
admin prize update to set `available_stock = 5`; afterwards a prize exists
with `available_stock > initial_stock`, violating the claimed invariant. -/
theorem c5_counterexample :
    ∃ p ∈ (applyOps dbStoreW
        [SysOp.createPrize "p1" "s1" "A" "" 1,
         SysOp.updatePrize "p1" none none (some 5)]).prizes,
      p.initial_stock < p.available_stock := by
  decide

theorem c5_stock_invariant_witness :
    dbInv (applyOps dbStoreW [SysOp.createPrize "p1" "s1" "A" "" 2])
    ∧ (∀ p ∈ (applyOps dbStoreW [SysOp.createPrize "p1" "s1" "A" "" 2]).prizes,
        0 ≤ p.available_stock)
    ∧ ((stockBounded dbStoreW ∧
        ∀ op ∈ [SysOp.createPrize "p1" "s1" "A" "" 2], isStockAdjust op = false) →
        stockBounded (applyOps dbStoreW [SysOp.createPrize "p1" "s1" "A" "" 2])) :=
  c5_stock_invariant [SysOp.createPrize "p1" "s1" "A" "" 2] dbStoreW ⟨by decide, by decide⟩

end SorteoPremios
